import Mathlib

/-!
# Watchtower core: shallow embedding and verification

This file embeds the core of the `obsidian_watchtower` repository
(record models `Evidence`/`Claim`/`Artifact`, the three append-only
stores, the diff engine and the alert generator) as executable Lean
definitions, and proves the specification's claims about them.

Modelling conventions:
* Python `float` confidence values are modelled as `ℚ` (exact arithmetic;
  no claim under study depends on floating-point rounding).
* `datetime` values are modelled as an abstract `Nat` tick; `isoformat`
  is modelled as its decimal rendering (an injective stand-in for the
  ISO-8601 string).
* `hashlib.sha256(...).hexdigest()` is implemented for real (FIPS 180-4)
  over byte lists; `str.encode('utf-8')` is the standard UTF-8 encoding.
* `json.dumps(..., sort_keys=True)` and `json.loads` are modelled by an
  executable serializer/parser over a Python-JSON value type `J`.
* Python `dict`s are modelled as association lists with first-position,
  last-value-wins insertion (`dictInsert`), matching `dict` semantics.
* Each Python method that generates a fresh `uuid4` id and a `utcnow`
  timestamp receives them as explicit parameters.
-/

namespace Watchtower

/-! ## Python dict as association list -/

/-- `d[k] = v` on a Python dict: replace in place if the key exists,
else append at the end (dicts preserve first-insertion order). -/
def dictInsert {α : Type} : List (String × α) → String → α → List (String × α)
  | [], k, v => [(k, v)]
  | (k', v') :: rest, k, v =>
      if k' = k then (k, v) :: rest else (k', v') :: dictInsert rest k v

/-- `d.get(k)`: value at a key, `none` when absent. -/
def dictGet {α : Type} (m : List (String × α)) (k : String) : Option α :=
  (m.find? (fun p => p.1 = k)).map Prod.snd

/-- `k in d`. -/
def dictContains {α : Type} (m : List (String × α)) (k : String) : Bool :=
  (dictGet m k).isSome

/-- Remove a key from a dict (helper for dict-equality recursion). -/
def dictRemove {α : Type} : List (String × α) → String → List (String × α)
  | [], _ => []
  | (k', v') :: rest, k => if k' = k then rest else (k', v') :: dictRemove rest k

/-- Build a dict from a pair list, later pairs overwriting earlier ones. -/
def dictOfPairs {α : Type} (l : List (String × α)) : List (String × α) :=
  l.foldl (fun m p => dictInsert m p.1 p.2) []

/-! ## Bytes, UTF-8, hex -/

/-- Truncate to a 32-bit word. -/
def w32 (n : Nat) : Nat := n % 4294967296

/-- UTF-8 encoding of one scalar value. -/
def utf8Char (c : Char) : List Nat :=
  let n := c.toNat
  if n < 128 then [n]
  else if n < 2048 then [192 + n / 64, 128 + n % 64]
  else if n < 65536 then [224 + n / 4096, 128 + (n / 64) % 64, 128 + n % 64]
  else [240 + n / 262144, 128 + (n / 4096) % 64, 128 + (n / 64) % 64, 128 + n % 64]

/-- `s.encode('utf-8')` as a byte list. -/
def utf8Bytes (s : String) : List Nat :=
  s.data.foldr (fun c acc => utf8Char c ++ acc) []

/-- Lowercase hex digit. -/
def hexDigit (n : Nat) : Char :=
  if n < 10 then Char.ofNat (48 + n) else Char.ofNat (87 + n)

/-- Eight-digit lowercase hex rendering of a 32-bit word. -/
def word32Hex (x : Nat) : String :=
  String.mk ((List.range 8).map (fun i => hexDigit ((x >>> (4 * (7 - i))) % 16)))

/-- Four-digit lowercase hex rendering (for `\u` escapes). -/
def hex4 (x : Nat) : List Char :=
  (List.range 4).map (fun i => hexDigit ((x >>> (4 * (3 - i))) % 16))

/-- Split a list into chunks of `n` elements (empty for `n = 0`). -/
def chunks {α : Type} (n : Nat) (l : List α) : List (List α) :=
  match l, n with
  | [], _ => []
  | _ :: _, 0 => []
  | x :: xs, m + 1 =>
      (x :: xs).take (m + 1) :: chunks (m + 1) ((x :: xs).drop (m + 1))
termination_by l.length
decreasing_by
  simp only [List.length_drop, List.length_cons]
  omega

/-! ## SHA-256 (FIPS 180-4) -/

/-- SHA-256 round constants. -/
def sha256K : List Nat :=
  [1116352408, 1899447441, 3049323471, 3921009573,
   961987163, 1508970993, 2453635748, 2870763221,
   3624381080, 310598401, 607225278, 1426881987,
   1925078388, 2162078206, 2614888103, 3248222580,
   3835390401, 4022224774, 264347078, 604807628,
   770255983, 1249150122, 1555081692, 1996064986,
   2554220882, 2821834349, 2952996808, 3210313671,
   3336571891, 3584528711, 113926993, 338241895,
   666307205, 773529912, 1294757372, 1396182291,
   1695183700, 1986661051, 2177026350, 2456956037,
   2730485921, 2820302411, 3259730800, 3345764771,
   3516065817, 3600352804, 4094571909, 275423344,
   430227734, 506948616, 659060556, 883997877,
   958139571, 1322822218, 1537002063, 1747873779,
   1955562222, 2024104815, 2227730452, 2361852424,
   2428436474, 2756734187, 3204031479, 3329325298]

/-- SHA-256 initial hash state. -/
def sha256H0 : List Nat :=
  [1779033703, 3144134277, 1013904242, 2773480762,
   1359893119, 2600822924, 528734635, 1541459225]

/-- 32-bit right rotation. -/
def rotr (s x : Nat) : Nat := w32 ((x >>> s) ||| (x <<< (32 - s)))

def bigSigma0 (x : Nat) : Nat := rotr 2 x ^^^ rotr 13 x ^^^ rotr 22 x
def bigSigma1 (x : Nat) : Nat := rotr 6 x ^^^ rotr 11 x ^^^ rotr 25 x
def smallSigma0 (x : Nat) : Nat := rotr 7 x ^^^ rotr 18 x ^^^ (x >>> 3)
def smallSigma1 (x : Nat) : Nat := rotr 17 x ^^^ rotr 19 x ^^^ (x >>> 10)
def shaCh (x y z : Nat) : Nat := (x &&& y) ^^^ ((x ^^^ 0xffffffff) &&& z)
def shaMaj (x y z : Nat) : Nat := (x &&& y) ^^^ (x &&& z) ^^^ (y &&& z)

/-- Big-endian 8-byte encoding. -/
def be64 (n : Nat) : List Nat :=
  (List.range 8).map (fun i => (n >>> (8 * (7 - i))) % 256)

/-- SHA-256 padding: append `0x80`, zeros to 56 mod 64, then the 64-bit
big-endian bit length. -/
def shaPad (msg : List Nat) : List Nat :=
  let k := (120 - (msg.length + 1) % 64) % 64
  msg ++ [0x80] ++ List.replicate k 0 ++ be64 (8 * msg.length)

/-- Big-endian 32-bit words of a 64-byte block. -/
def blockWords (block : List Nat) : List Nat :=
  (chunks 4 block).map (fun b => b.foldl (fun acc x => acc * 256 + x) 0)

/-- Extend 16 message words to the 64-entry message schedule. -/
def msgSchedule (w16 : List Nat) : List Nat :=
  let ext := (List.range 48).foldl
    (fun (w : Array Nat) _ =>
      w.push (w32 (smallSigma1 (w.getD (w.size - 2) 0) + w.getD (w.size - 7) 0 +
                   smallSigma0 (w.getD (w.size - 15) 0) + w.getD (w.size - 16) 0)))
    w16.toArray
  ext.toList

/-- One SHA-256 compression round. -/
def shaRound (st : List Nat) (kw : Nat × Nat) : List Nat :=
  let a := st.getD 0 0
  let b := st.getD 1 0
  let c := st.getD 2 0
  let d := st.getD 3 0
  let e := st.getD 4 0
  let f := st.getD 5 0
  let g := st.getD 6 0
  let h := st.getD 7 0
  let t1 := w32 (h + bigSigma1 e + shaCh e f g + kw.1 + kw.2)
  let t2 := w32 (bigSigma0 a + shaMaj a b c)
  [w32 (t1 + t2), a, b, c, w32 (d + t1), e, f, g]

/-- Compress one 64-byte block into the running hash state. -/
def shaCompress (hs : List Nat) (block : List Nat) : List Nat :=
  let w := msgSchedule (blockWords block)
  let fin := (sha256K.zip w).foldl shaRound hs
  (hs.zip fin).map (fun p => w32 (p.1 + p.2))

/-- `hashlib.sha256(bytes).hexdigest()`. -/
def sha256Hex (msg : List Nat) : String :=
  let hs := (chunks 64 (shaPad msg)).foldl shaCompress sha256H0
  String.join (hs.map word32Hex)

/-- SHA-256 hex digest of a string's UTF-8 bytes. -/
def sha256HexOfString (s : String) : String := sha256Hex (utf8Bytes s)

/-! ## Python JSON values -/

/-- A Python JSON value (`json.loads` result / `json.dumps` input).
Objects are kept as ordered key/value pair lists; the parser
normalizes them with `dict` semantics (last value wins). -/
inductive J where
  | jnull : J
  | jbool : Bool → J
  | jnum : ℚ → J
  | jstr : String → J
  | jarr : List J → J
  | jobj : List (String × J) → J

/-- JSON string-literal escaping as `json.dumps` performs it with the
default `ensure_ascii=True`: printable ASCII kept, two-character escapes
for the JSON specials, `\uXXXX` (surrogate pairs above U+FFFF) otherwise. -/
def jsonEscapeChar (c : Char) : List Char :=
  let n := c.toNat
  if c = '"' then ['\\', '"']
  else if c = '\\' then ['\\', '\\']
  else if n = 10 then ['\\', 'n']
  else if n = 9 then ['\\', 't']
  else if n = 13 then ['\\', 'r']
  else if n = 8 then ['\\', 'b']
  else if n = 12 then ['\\', 'f']
  else if 32 ≤ n ∧ n < 127 then [c]
  else if n < 65536 then '\\' :: 'u' :: hex4 n
  else
    let m := n - 65536
    ('\\' :: 'u' :: hex4 (55296 + m / 1024)) ++ ('\\' :: 'u' :: hex4 (56320 + m % 1024))

/-- A JSON string literal, quotes included. -/
def jsonStringLit (s : String) : String :=
  "\"" ++ String.mk (s.data.foldr (fun c acc => jsonEscapeChar c ++ acc) []) ++ "\""

/-- Decimal digits of the fractional part `num/den`, at most `fuel` digits,
stopping at an exact zero remainder (models the shortest-round-trip rendering
of Python float literals for terminating decimals). -/
def fracDigits : Nat → Nat → Nat → List Char
  | 0, _, _ => []
  | _, 0, _ => []
  | fuel + 1, num, den =>
      let d := num * 10 / den
      hexDigit (d % 10) :: fracDigits fuel (num * 10 % den) den

/-- How `json.dumps` renders a Python float: integer part, a dot, and the
fractional digits (`1.0` keeps the trailing zero). -/
def jsonNum (q : ℚ) : String :=
  let sign := if q.num < 0 then "-" else ""
  let intPart := q.num.natAbs / q.den
  let fracNum := q.num.natAbs % q.den
  let frac := if fracNum = 0 then ['0'] else fracDigits 17 fracNum q.den
  sign ++ toString intPart ++ "." ++ String.mk frac

mutual

/-- `json.dumps(v)` with the default separators `", "` and `": "`
(no key sorting; see `J.dumpsSorted`). -/
def J.dumps : J → String
  | .jnull => "null"
  | .jbool b => if b then "true" else "false"
  | .jnum q => jsonNum q
  | .jstr s => jsonStringLit s
  | .jarr xs => "[" ++ J.dumpsList xs ++ "]"
  | .jobj kvs => "\x7b" ++ J.dumpsObj kvs ++ "\x7d"

def J.dumpsList : List J → String
  | [] => ""
  | [x] => J.dumps x
  | x :: y :: xs => J.dumps x ++ ", " ++ J.dumpsList (y :: xs)

def J.dumpsObj : List (String × J) → String
  | [] => ""
  | [(k, v)] => jsonStringLit k ++ ": " ++ J.dumps v
  | (k, v) :: y :: xs => jsonStringLit k ++ ": " ++ J.dumps v ++ ", " ++ J.dumpsObj (y :: xs)

end

/-- Code-point lexicographic comparison of character lists: exactly how
Python compares `str` values. -/
def pyCharListLe : List Char → List Char → Bool
  | [], _ => true
  | _ :: _, [] => false
  | x :: xs, y :: ys =>
      if x.toNat < y.toNat then true
      else if y.toNat < x.toNat then false
      else pyCharListLe xs ys

/-- Python `<=` on strings. -/
def pyStrLe (a b : String) : Bool := pyCharListLe a.data b.data

/-- Insert an element into a sorted list, after all elements `≤` it
(the insertion step of a stable ascending sort). -/
def insertSorted {α : Type} (le : α → α → Bool) (x : α) : List α → List α
  | [] => [x]
  | y :: ys => if le y x then y :: insertSorted le x ys else x :: y :: ys

/-- A stable sort (insertion sort, processing left to right): the unique
stable-sort result, hence the list Python's stable `sorted`/`list.sort`
produce for the same (total, transitive) comparison. -/
def pyStableSort {α : Type} (le : α → α → Bool) (l : List α) : List α :=
  l.foldl (fun acc x => insertSorted le x acc) []

/-- Sort dict entries by key (Python `sorted` on strings: code-point
lexicographic). -/
def sortPairsByKey {α : Type} (l : List (String × α)) : List (String × α) :=
  pyStableSort (fun a b => pyStrLe a.1 b.1) l

mutual

/-- Recursively sort every object's keys (the effect of `sort_keys=True`). -/
def J.sortKeys : J → J
  | .jnull => .jnull
  | .jbool b => .jbool b
  | .jnum q => .jnum q
  | .jstr s => .jstr s
  | .jarr xs => .jarr (J.sortKeysList xs)
  | .jobj kvs => .jobj (sortPairsByKey (J.sortKeysObj kvs))

def J.sortKeysList : List J → List J
  | [] => []
  | x :: xs => J.sortKeys x :: J.sortKeysList xs

def J.sortKeysObj : List (String × J) → List (String × J)
  | [] => []
  | (k, v) :: xs => (k, J.sortKeys v) :: J.sortKeysObj xs

end

/-- `json.dumps(v, sort_keys=True)`. -/
def J.dumpsSorted (v : J) : String := (J.sortKeys v).dumps

/-- `None`/`str` field as a JSON value. -/
def jOfOptStr : Option String → J
  | none => J.jnull
  | some s => J.jstr s

/-! ## `json.loads`: a recursive-descent parser -/

/-- Skip JSON whitespace. -/
def skipWs : List Char → List Char
  | c :: cs => if c = ' ' ∨ c = '\t' ∨ c = '\n' ∨ c = '\r' then skipWs cs else c :: cs
  | [] => []

/-- Parse a run of decimal digits. -/
def parseDigits : List Char → (List Char × List Char)
  | c :: cs =>
      if '0' ≤ c ∧ c ≤ '9' then
        let (ds, rest) := parseDigits cs
        (c :: ds, rest)
      else ([], c :: cs)
  | [] => ([], [])

/-- Natural-number value of a digit run. -/
def digitsVal (ds : List Char) : Nat :=
  ds.foldl (fun acc c => acc * 10 + (c.toNat - 48)) 0

/-- Parse a JSON number (integer part, optional fraction, optional
exponent) into a rational. -/
def parseNumber (cs : List Char) : Option (ℚ × List Char) :=
  let (neg, cs₁) := match cs with
    | '-' :: rest => (true, rest)
    | _ => (false, cs)
  let (ints, cs₂) := parseDigits cs₁
  if ints = [] then none else
  let (fracs, cs₃) := match cs₂ with
    | '.' :: rest =>
        let (ds, r) := parseDigits rest
        (ds, r)
    | _ => ([], cs₂)
  let expPart : Option (Int × List Char) := match cs₃ with
    | 'e' :: rest | 'E' :: rest =>
        let (esign, rest') := match rest with
          | '-' :: r => ((-1 : Int), r)
          | '+' :: r => ((1 : Int), r)
          | _ => ((1 : Int), rest)
        let (eds, r) := parseDigits rest'
        if eds = [] then none else some (esign * (digitsVal eds : Int), r)
    | _ => some (0, cs₃)
  match expPart with
  | none => none
  | some (e, rest) =>
      if cs₂ ≠ cs₃ ∧ fracs = [] then none
      else
        let mant : ℚ := (digitsVal ints : ℚ) + (digitsVal fracs : ℚ) / ((10 : ℚ) ^ fracs.length)
        let scaled : ℚ := if 0 ≤ e then mant * (10 : ℚ) ^ e.natAbs else mant / (10 : ℚ) ^ e.natAbs
        some (if neg then -scaled else scaled, rest)

/-- Parse a JSON string body after the opening quote, with fuel. -/
def parseStringBody : Nat → List Char → Option (List Char × List Char)
  | 0, _ => none
  | _, [] => none
  | fuel + 1, c :: cs =>
      if c = '"' then some ([], cs)
      else if c = '\\' then
        match cs with
        | [] => none
        | e :: cs' =>
            let esc : Option (Char × List Char) :=
              if e = '"' then some ('"', cs')
              else if e = '\\' then some ('\\', cs')
              else if e = '/' then some ('/', cs')
              else if e = 'n' then some ('\n', cs')
              else if e = 't' then some ('\t', cs')
              else if e = 'r' then some ('\r', cs')
              else if e = 'b' then some (Char.ofNat 8, cs')
              else if e = 'f' then some (Char.ofNat 12, cs')
              else if e = 'u' then
                match cs' with
                | h1 :: h2 :: h3 :: h4 :: cs'' =>
                    let hv := fun (c : Char) =>
                      if '0' ≤ c ∧ c ≤ '9' then some (c.toNat - 48)
                      else if 'a' ≤ c ∧ c ≤ 'f' then some (c.toNat - 87)
                      else if 'A' ≤ c ∧ c ≤ 'F' then some (c.toNat - 55)
                      else none
                    match hv h1, hv h2, hv h3, hv h4 with
                    | some a, some b, some c, some d =>
                        some (Char.ofNat (4096 * a + 256 * b + 16 * c + d), cs'')
                    | _, _, _, _ => none
                | _ => none
              else none
            match esc with
            | some (ch, rest) =>
                match parseStringBody fuel rest with
                | some (body, rest') => some (ch :: body, rest')
                | none => none
            | none => none
      else
        match parseStringBody fuel cs with
        | some (body, rest) => some (c :: body, rest)
        | none => none

mutual

/-- Parse one JSON value (leading whitespace skipped), with fuel. -/
def parseValue : Nat → List Char → Option (J × List Char)
  | 0, _ => none
  | fuel + 1, cs =>
      match skipWs cs with
      | [] => none
      | c :: rest =>
          if c = 'n' then
            match rest with
            | 'u' :: 'l' :: 'l' :: r => some (.jnull, r)
            | _ => none
          else if c = 't' then
            match rest with
            | 'r' :: 'u' :: 'e' :: r => some (.jbool true, r)
            | _ => none
          else if c = 'f' then
            match rest with
            | 'a' :: 'l' :: 's' :: 'e' :: r => some (.jbool false, r)
            | _ => none
          else if c = '"' then
            match parseStringBody (rest.length + 1) rest with
            | some (body, r) => some (.jstr (String.mk body), r)
            | none => none
          else if c = '[' then
            match skipWs rest with
            | ']' :: r => some (.jarr [], r)
            | _ =>
                match parseElems fuel rest with
                | some (xs, r) => some (.jarr xs, r)
                | none => none
          else if c = '\x7b' then
            match skipWs rest with
            | '\x7d' :: r => some (.jobj [], r)
            | _ =>
                match parseMembers fuel rest with
                | some (kvs, r) => some (.jobj (dictOfPairs kvs), r)
                | none => none
          else
            match parseNumber (c :: rest) with
            | some (q, r) => some (.jnum q, r)
            | none => none
termination_by structural fuel => fuel

/-- Parse comma-separated array elements up to the closing bracket. -/
def parseElems : Nat → List Char → Option (List J × List Char)
  | 0, _ => none
  | fuel + 1, cs =>
      match parseValue fuel cs with
      | none => none
      | some (v, rest) =>
          match skipWs rest with
          | ',' :: r =>
              match parseElems fuel r with
              | some (xs, r') => some (v :: xs, r')
              | none => none
          | ']' :: r => some ([v], r)
          | _ => none
termination_by structural fuel => fuel

/-- Parse comma-separated `"key": value` members up to the closing brace. -/
def parseMembers : Nat → List Char → Option (List (String × J) × List Char)
  | 0, _ => none
  | fuel + 1, cs =>
      match skipWs cs with
      | '"' :: rest =>
          match parseStringBody (rest.length + 1) rest with
          | none => none
          | some (key, r₁) =>
              match skipWs r₁ with
              | ':' :: r₂ =>
                  match parseValue fuel r₂ with
                  | none => none
                  | some (v, r₃) =>
                      match skipWs r₃ with
                      | ',' :: r₄ =>
                          match parseMembers fuel r₄ with
                          | some (kvs, r₅) => some ((String.mk key, v) :: kvs, r₅)
                          | none => none
                      | '\x7d' :: r₄ => some ([(String.mk key, v)], r₄)
                      | _ => none
              | _ => none
      | _ => none
termination_by structural fuel => fuel

end

/-- `json.loads(s)`: parse, requiring only whitespace after the value;
`none` models a raised `JSONDecodeError`. -/
def pyJsonLoads (s : String) : Option J :=
  match parseValue (s.length + 1) s.data with
  | some (v, rest) => if skipWs rest = [] then some v else none
  | none => none

/-! ## Python `==` on JSON values -/

/-- Numeric view: Python compares `bool` and numbers numerically
(`True == 1`, `1 == 1.0`). -/
def jNumView : J → Option ℚ
  | .jnum q => some q
  | .jbool b => some (if b then 1 else 0)
  | _ => none

mutual

/-- Python `==` on parsed JSON values. Objects are compared as dicts
(same keys, equal values); the parser already normalizes objects to
dict form. -/
def pyEq : J → J → Bool
  | .jnull, .jnull => true
  | .jstr a, .jstr b => a = b
  | .jarr a, .jarr b => pyEqList a b
  | .jobj a, .jobj b => pyEqObj a b
  | a, b =>
      match jNumView a, jNumView b with
      | some x, some y => x = y
      | _, _ => false

def pyEqList : List J → List J → Bool
  | [], [] => true
  | x :: xs, y :: ys => pyEq x y && pyEqList xs ys
  | _, _ => false

def pyEqObj : List (String × J) → List (String × J) → Bool
  | [], db => db.isEmpty
  | (k, v) :: rest, db =>
      match dictGet db k with
      | some v' => pyEq v v' && pyEqObj rest (dictRemove db k)
      | none => false

end

/-! ## Record model -/

/-- `datetime.isoformat()`, over the abstract `Nat` tick model of
`datetime`: rendered as the tick's decimal digits (injective, so distinct
instants yield distinct strings, as ISO-8601 rendering does). -/
def pyIsoformat (t : Nat) : String := toString t

/-- Python `f"{name}:{version}" if name else None`: the `name:version`
provenance tag, `None` when the name is `None` or empty (falsy). -/
def provTag (name version : Option String) : Option String :=
  match name with
  | none => none
  | some s =>
      if s = "" then none
      else some (s ++ ":" ++ (match version with | none => "None" | some v => v))

/-- `watchtower.models.evidence.Evidence`. -/
structure Evidence where
  id : Option String := none
  content : String
  source : String
  metadata : List (String × J) := []
  tool_name : Option String := none
  tool_version : Option String := none
  model_name : Option String := none
  model_version : Option String := none
  timestamp : Nat

/-- `Evidence.sha256`: SHA-256 hex digest of the UTF-8 content bytes. -/
def Evidence.sha256 (e : Evidence) : String :=
  sha256HexOfString e.content

/-- `Evidence.fingerprint`: SHA-256 of the key-sorted JSON dump of the
fingerprint dict, built in the code's literal insertion order. -/
def Evidence.fingerprint (e : Evidence) : String :=
  let fingerprintData : J := .jobj [
    ("sha256", .jstr e.sha256),
    ("timestamp", .jstr (pyIsoformat e.timestamp)),
    ("tool", jOfOptStr (provTag e.tool_name e.tool_version)),
    ("model", jOfOptStr (provTag e.model_name e.model_version))]
  sha256HexOfString fingerprintData.dumpsSorted

/-- `watchtower.models.claim.Claim` (the value as constructed; see
`mkClaim` for the construction-time validation). -/
structure Claim where
  id : Option String := none
  statement : String
  confidence : ℚ
  supporting_evidence_ids : List String := []
  counter_evidence_ids : List String := []
  metadata : List (String × J) := []
  tool_name : Option String := none
  tool_version : Option String := none
  model_name : Option String := none
  model_version : Option String := none
  timestamp : Nat

/-- Pydantic construction failures surfaced by the `Claim` model:
`confidence` outside its `ge=0.0, le=1.0` bounds, or the
`model_post_init` "no claim without evidence_ref" check. -/
inductive ValidationError where
  | confidenceOutOfRange : ValidationError
  | noEvidenceRef : ValidationError
deriving DecidableEq

/-- Constructing a `Claim`: pydantic validates the `confidence` field
bounds, then `model_post_init` requires at least one evidence reference. -/
def mkClaim (statement : String) (confidence : ℚ)
    (supporting counter : List String) (metadata : List (String × J))
    (tool_name tool_version model_name model_version : Option String)
    (timestamp : Nat) : Except ValidationError Claim :=
  if ¬(0 ≤ confidence ∧ confidence ≤ 1) then
    .error .confidenceOutOfRange
  else if supporting.length + counter.length = 0 then
    .error .noEvidenceRef
  else
    .ok { statement := statement, confidence := confidence,
          supporting_evidence_ids := supporting,
          counter_evidence_ids := counter, metadata := metadata,
          tool_name := tool_name, tool_version := tool_version,
          model_name := model_name, model_version := model_version,
          timestamp := timestamp }

/-- `Claim.evidence_refs`: supporting ids followed by counter ids. -/
def Claim.evidence_refs (c : Claim) : List String :=
  c.supporting_evidence_ids ++ c.counter_evidence_ids

/-- Python `sorted` on a string list. -/
def pySortStrings (l : List String) : List String :=
  pyStableSort pyStrLe l

/-- `Claim.run_fingerprint`: SHA-256 of the key-sorted JSON dump of the
fingerprint dict; the evidence id lists are sorted before hashing. -/
def Claim.run_fingerprint (c : Claim) : String :=
  let fingerprintData : J := .jobj [
    ("statement_hash", .jstr (sha256HexOfString c.statement)),
    ("confidence", .jnum c.confidence),
    ("supporting_evidence", .jarr ((pySortStrings c.supporting_evidence_ids).map .jstr)),
    ("counter_evidence", .jarr ((pySortStrings c.counter_evidence_ids).map .jstr)),
    ("timestamp", .jstr (pyIsoformat c.timestamp)),
    ("tool", jOfOptStr (provTag c.tool_name c.tool_version)),
    ("model", jOfOptStr (provTag c.model_name c.model_version))]
  sha256HexOfString fingerprintData.dumpsSorted

/-- The `Literal["evidence", "claim", "derived", "report"]` artifact type. -/
inductive ArtifactType where
  | evidence | claim | derived | report
deriving DecidableEq

def ArtifactType.str : ArtifactType → String
  | .evidence => "evidence"
  | .claim => "claim"
  | .derived => "derived"
  | .report => "report"

/-- `watchtower.models.artifact.Artifact`. -/
structure Artifact where
  id : Option String := none
  artifact_type : ArtifactType
  content : String
  parent_artifact_id : Option String := none
  metadata : List (String × J) := []
  tool_name : Option String := none
  tool_version : Option String := none
  model_name : Option String := none
  model_version : Option String := none
  timestamp : Nat

/-- `Artifact.sha256`: SHA-256 hex digest of the UTF-8 content bytes. -/
def Artifact.sha256 (a : Artifact) : String :=
  sha256HexOfString a.content

/-- `Artifact.fingerprint`: SHA-256 of the key-sorted JSON dump of the
fingerprint dict. -/
def Artifact.fingerprint (a : Artifact) : String :=
  let fingerprintData : J := .jobj [
    ("sha256", .jstr a.sha256),
    ("artifact_type", .jstr a.artifact_type.str),
    ("parent_id", jOfOptStr a.parent_artifact_id),
    ("timestamp", .jstr (pyIsoformat a.timestamp)),
    ("tool", jOfOptStr (provTag a.tool_name a.tool_version)),
    ("model", jOfOptStr (provTag a.model_name a.model_version))]
  sha256HexOfString fingerprintData.dumpsSorted

/-! ## List helpers shared by the stores -/

/-- `l[:n]` on a Python list, for any integer `n`. -/
def pySliceTo {α : Type} (l : List α) (n : Int) : List α :=
  if 0 ≤ n then l.take n.toNat else l.take (l.length - n.natAbs)

/-- The `if limit: results = results[:limit]` idiom: `limit` is applied
only when it is given and non-zero (Python truthiness of `int`). -/
def pyTruncate {α : Type} (limit : Option Int) (l : List α) : List α :=
  match limit with
  | some n => if n ≠ 0 then pySliceTo l n else l
  | none => l

/-! ## Evidence store -/

/-- `watchtower.storage.evidence_store.EvidenceStore`: a dict keyed by id. -/
structure EvidenceStore where
  entries : List (String × Evidence) := []

/-- `EvidenceStore.store_evidence`; the fresh uuid and the `utcnow`
timestamp are passed explicitly. -/
def EvidenceStore.store_evidence (es : EvidenceStore) (content source : String)
    (metadata : Option (List (String × J)))
    (tool_name tool_version model_name model_version : Option String)
    (freshId : String) (now : Nat) : Evidence × EvidenceStore :=
  let e : Evidence :=
    { id := some freshId, content := content, source := source,
      metadata := metadata.getD [], tool_name := tool_name,
      tool_version := tool_version, model_name := model_name,
      model_version := model_version, timestamp := now }
  (e, ⟨dictInsert es.entries freshId e⟩)

/-- `EvidenceStore.get_evidence`. -/
def EvidenceStore.get_evidence (es : EvidenceStore) (evidenceId : String) :
    Option Evidence :=
  dictGet es.entries evidenceId

/-- `EvidenceStore.list_evidence`: conjunctive filters, newest-first
stable sort, then the `if limit:` truncation. An empty `source` string is
falsy in Python, so it disables the source filter. -/
def EvidenceStore.list_evidence (es : EvidenceStore) (source : Option String)
    (since : Option Nat) (limit : Option Int) : List Evidence :=
  let results := es.entries.map Prod.snd
  let results : List Evidence := match source with
    | some s => if s ≠ "" then results.filter (fun e => e.source = s) else results
    | none => results
  let results : List Evidence := match since with
    | some t => results.filter (fun e => t ≤ e.timestamp)
    | none => results
  let results := pyStableSort (fun a b => b.timestamp ≤ a.timestamp) results
  pyTruncate limit results

/-- `EvidenceStore.verify_evidence`. -/
def EvidenceStore.verify_evidence (es : EvidenceStore) (evidenceId : String) :
    Bool :=
  match es.get_evidence evidenceId with
  | none => false
  | some e => e.sha256 = e.sha256

/-- `EvidenceStore.count_evidence`. -/
def EvidenceStore.count_evidence (es : EvidenceStore) : Nat :=
  es.entries.length

/-! ## Claim store -/

/-- How `ClaimStore.store_claim` fails: the pre-construction referential
check (`ValueError("Evidence not found: ...")`, the spec's
`ReferentialIntegrityError`), or a `Claim` construction failure. -/
inductive StoreClaimError where
  | referentialIntegrity : String → StoreClaimError
  | validation : ValidationError → StoreClaimError
deriving DecidableEq

/-- `watchtower.storage.claim_store.ClaimStore`: a dict keyed by id.
The bound `EvidenceStore` is passed to `store_claim` explicitly. -/
structure ClaimStore where
  entries : List (String × Claim) := []

/-- `ClaimStore.store_claim`: checks every referenced evidence id against
the bound store, then constructs the claim, then registers it. The store
component of the result is the claim dict after the call, unchanged
whenever an error is raised (the `raise` happens before the insertion). -/
def ClaimStore.store_claim (cs : ClaimStore) (es : EvidenceStore)
    (statement : String) (confidence : ℚ) (supporting_evidence_ids : List String)
    (counter_evidence_ids : Option (List String))
    (metadata : Option (List (String × J)))
    (tool_name tool_version model_name model_version : Option String)
    (freshId : String) (now : Nat) :
    Except StoreClaimError Claim × ClaimStore :=
  let all_evidence_ids := supporting_evidence_ids ++ counter_evidence_ids.getD []
  match all_evidence_ids.find? (fun i => (es.get_evidence i).isNone) with
  | some missing => (.error (.referentialIntegrity missing), cs)
  | none =>
      match mkClaim statement confidence supporting_evidence_ids
          (counter_evidence_ids.getD []) (metadata.getD [])
          tool_name tool_version model_name model_version now with
      | .error e => (.error (.validation e), cs)
      | .ok c0 =>
          let c := { c0 with id := some freshId }
          (.ok c, ⟨dictInsert cs.entries freshId c⟩)

/-- `ClaimStore.get_claim`. -/
def ClaimStore.get_claim (cs : ClaimStore) (claimId : String) : Option Claim :=
  dictGet cs.entries claimId

/-- `ClaimStore.list_claims`: conjunctive filters, stable sort descending
on `(confidence, timestamp)`, then the `if limit:` truncation. -/
def ClaimStore.list_claims (cs : ClaimStore) (min_confidence : Option ℚ)
    (since : Option Nat) (limit : Option Int) : List Claim :=
  let results := cs.entries.map Prod.snd
  let results : List Claim := match min_confidence with
    | some m => results.filter (fun c => m ≤ c.confidence)
    | none => results
  let results : List Claim := match since with
    | some t => results.filter (fun c => t ≤ c.timestamp)
    | none => results
  let results := pyStableSort (fun a b =>
    b.confidence < a.confidence ∨ (b.confidence = a.confidence ∧ b.timestamp ≤ a.timestamp)) results
  pyTruncate limit results

/-- `ClaimStore.get_claims_by_evidence`. -/
def ClaimStore.get_claims_by_evidence (cs : ClaimStore) (evidenceId : String) :
    List Claim :=
  (cs.entries.map Prod.snd).filter (fun c => c.evidence_refs.contains evidenceId)

/-- `ClaimStore.count_claims`. -/
def ClaimStore.count_claims (cs : ClaimStore) : Nat :=
  cs.entries.length

/-! ## Artifact store -/

/-- `watchtower.storage.artifact_store.ArtifactStore`: a dict keyed by id. -/
structure ArtifactStore where
  entries : List (String × Artifact) := []

/-- `ArtifactStore.store_artifact`; no validation of `parent_artifact_id`. -/
def ArtifactStore.store_artifact (st : ArtifactStore)
    (artifact_type : ArtifactType) (content : String)
    (parent_artifact_id : Option String)
    (metadata : Option (List (String × J)))
    (tool_name tool_version model_name model_version : Option String)
    (freshId : String) (now : Nat) : Artifact × ArtifactStore :=
  let a : Artifact :=
    { id := some freshId, artifact_type := artifact_type, content := content,
      parent_artifact_id := parent_artifact_id, metadata := metadata.getD [],
      tool_name := tool_name, tool_version := tool_version,
      model_name := model_name, model_version := model_version,
      timestamp := now }
  (a, ⟨dictInsert st.entries freshId a⟩)

/-- `ArtifactStore.get_artifact`. -/
def ArtifactStore.get_artifact (st : ArtifactStore) (artifactId : String) :
    Option Artifact :=
  dictGet st.entries artifactId

/-- `ArtifactStore.list_artifacts`: conjunctive filters, newest-first
stable sort, then the `if limit:` truncation. An `artifact_type` filter is
always truthy when given; the `parent_artifact_id` filter is applied by
an `is not None` test in the source. -/
def ArtifactStore.list_artifacts (st : ArtifactStore)
    (artifact_type : Option ArtifactType) (parent_artifact_id : Option String)
    (since : Option Nat) (limit : Option Int) : List Artifact :=
  let results := st.entries.map Prod.snd
  let results : List Artifact := match artifact_type with
    | some t => results.filter (fun a => a.artifact_type = t)
    | none => results
  let results : List Artifact := match parent_artifact_id with
    | some p => results.filter (fun a => a.parent_artifact_id = some p)
    | none => results
  let results : List Artifact := match since with
    | some t => results.filter (fun a => t ≤ a.timestamp)
    | none => results
  let results := pyStableSort (fun a b => b.timestamp ≤ a.timestamp) results
  pyTruncate limit results

/-- The `while current_id:` walk of `get_artifact_lineage`, indexed by
fuel: `none` means the loop was still running when the fuel ran out, so
`∃ fuel` with a `some` result is exactly termination of the Python loop.
Each found artifact is prepended (`lineage.insert(0, ...)`); a `None` or
empty (falsy) id, or a missing artifact, ends the walk normally. -/
def lineageLoop (st : ArtifactStore) :
    Nat → Option String → List Artifact → Option (List Artifact)
  | fuel, currentId, acc =>
      match currentId with
      | none => some acc
      | some cid =>
          if cid = "" then some acc
          else
            match fuel with
            | 0 => none
            | fuel' + 1 =>
                match st.get_artifact cid with
                | none => some acc
                | some a => lineageLoop st fuel' a.parent_artifact_id (a :: acc)

/-- `ArtifactStore.get_artifact_lineage`, fuel-indexed. -/
def ArtifactStore.get_artifact_lineage (st : ArtifactStore) (fuel : Nat)
    (artifactId : String) : Option (List Artifact) :=
  lineageLoop st fuel (some artifactId) []

/-- The lineage walk terminates on this store and id: some amount of fuel
completes the loop. -/
def LineageTerminates (st : ArtifactStore) (artifactId : String) : Prop :=
  ∃ fuel, (st.get_artifact_lineage fuel artifactId).isSome

/-- `ArtifactStore.verify_artifact`. -/
def ArtifactStore.verify_artifact (st : ArtifactStore) (artifactId : String) :
    Bool :=
  match st.get_artifact artifactId with
  | none => false
  | some a => a.sha256 = a.sha256

/-- `ArtifactStore.count_artifacts`. -/
def ArtifactStore.count_artifacts (st : ArtifactStore) : Nat :=
  st.entries.length

/-! ## Diff engine -/

/-- The `{c.id: c for c in claims if c.id}` map: claims with a falsy id
(`None` or the empty string) are excluded; later claims overwrite. -/
def buildClaimMap (claims : List Claim) : List (String × Claim) :=
  claims.foldl
    (fun m c => match c.id with
      | some i => if i = "" then m else dictInsert m i c
      | none => m)
    []

/-- One entry of `modified_claims` in a run diff. -/
structure ModEntry where
  id : String
  statement_changed : Bool
  confidence_changed : Bool
  confidence_delta : ℚ
  fingerprint_changed : Bool

/-- The dictionary `compute_run_diff` returns. -/
structure RunDiff where
  added_claims : List String
  removed_claims : List String
  modified_claims : List ModEntry
  total_changes : Nat

/-- Whether two claims sharing an id count as modified: statement,
confidence, or `run_fingerprint` differ. -/
def claimsDiffer (a b : Claim) : Bool :=
  a.statement ≠ b.statement ∨ a.confidence ≠ b.confidence ∨
    a.run_fingerprint ≠ b.run_fingerprint

/-- `watchtower.utils.diff.compute_run_diff`. Python's set differences
and intersection are modelled as deterministically ordered lists over the
maps' key lists; the claims proved below only use their membership and
lengths, which the hash-dependent iteration order of `set` does not
affect. -/
def compute_run_diff (claims_a claims_b : List Claim) : RunDiff :=
  let claims_a_map := buildClaimMap claims_a
  let claims_b_map := buildClaimMap claims_b
  let ids_a := claims_a_map.map Prod.fst
  let ids_b := claims_b_map.map Prod.fst
  let added_ids := ids_b.filter (fun i => ¬ dictContains claims_a_map i)
  let removed_ids := ids_a.filter (fun i => ¬ dictContains claims_b_map i)
  let common_ids := ids_a.filter (fun i => dictContains claims_b_map i)
  let modified_claims := common_ids.filterMap (fun i =>
    match dictGet claims_a_map i, dictGet claims_b_map i with
    | some claim_a, some claim_b =>
        if claimsDiffer claim_a claim_b then
          some { id := i,
                 statement_changed := claim_a.statement ≠ claim_b.statement,
                 confidence_changed := claim_a.confidence ≠ claim_b.confidence,
                 confidence_delta := claim_b.confidence - claim_a.confidence,
                 fingerprint_changed := claim_a.run_fingerprint ≠ claim_b.run_fingerprint }
        else none
    | _, _ => none)
  { added_claims := added_ids,
    removed_claims := removed_ids,
    modified_claims := modified_claims,
    total_changes := added_ids.length + removed_ids.length + modified_claims.length }

/-- One entry of `modified_keys` in a dict diff. -/
structure ModKey where
  key : String
  old_value : J
  new_value : J

/-- The dictionary `_compute_dict_diff` returns. -/
structure DictDiff where
  added_keys : List String
  removed_keys : List String
  modified_keys : List ModKey

/-- `watchtower.utils.diff._compute_dict_diff` on two parsed (and
dict-normalized) JSON objects; values compared with Python `==`. -/
def compute_dict_diff (dict_a dict_b : List (String × J)) : DictDiff :=
  let keys_a := dict_a.map Prod.fst
  let keys_b := dict_b.map Prod.fst
  { added_keys := keys_b.filter (fun k => ¬ dictContains dict_a k),
    removed_keys := keys_a.filter (fun k => ¬ dictContains dict_b k),
    modified_keys := (keys_a.filter (fun k => dictContains dict_b k)).filterMap
      (fun k =>
        match dictGet dict_a k, dictGet dict_b k with
        | some va, some vb =>
            if pyEq va vb then none else some { key := k, old_value := va, new_value := vb }
        | _, _ => none) }

/-- The `content_diff` value: a structured per-key diff, or the opaque
`"Raw content differs"` marker set when `json.loads` raised. -/
inductive ContentDiff where
  | dict : DictDiff → ContentDiff
  | rawContentDiffers : ContentDiff

/-- The dictionary `compute_artifact_diff` returns. -/
structure ArtifactDiff where
  id_match : Bool
  type_match : Bool
  content_match : Bool
  sha256_match : Bool
  fingerprint_match : Bool
  parent_match : Bool
  content_diff : Option ContentDiff

/-- The uncaught exception `compute_artifact_diff` can raise: both
contents parse as JSON but at least one is not an object, so
`_compute_dict_diff` calls `.keys()` on a non-dict (`AttributeError`,
absent from the `except (json.JSONDecodeError, TypeError)` clause). -/
inductive PyError where
  | attributeError : PyError
deriving DecidableEq

/-- The six field-match flags of an artifact diff. -/
def artifactDiffBase (a b : Artifact) : ArtifactDiff :=
  { id_match := a.id = b.id,
    type_match := a.artifact_type = b.artifact_type,
    content_match := a.content = b.content,
    sha256_match := a.sha256 = b.sha256,
    fingerprint_match := a.fingerprint = b.fingerprint,
    parent_match := a.parent_artifact_id = b.parent_artifact_id,
    content_diff := none }

/-- `watchtower.utils.diff.compute_artifact_diff`. -/
def compute_artifact_diff (a b : Artifact) : Except PyError ArtifactDiff :=
  let diff := artifactDiffBase a b
  if a.content = b.content then .ok diff
  else
    match pyJsonLoads a.content, pyJsonLoads b.content with
    | some (J.jobj content_a), some (J.jobj content_b) =>
        .ok { diff with content_diff := some (.dict (compute_dict_diff content_a content_b)) }
    | some _, some _ => .error .attributeError
    | _, _ => .ok { diff with content_diff := some .rawContentDiffers }

/-! ## Alert generator -/

/-- `watchtower.utils.alerts.Alert`; `details` is the Python dict,
modelled as a JSON object. -/
structure Alert where
  alert_type : String
  severity : String
  message : String
  details : List (String × J)
  timestamp : Nat

/-- `watchtower.utils.alerts.AlertGenerator` configuration. -/
structure AlertGenerator where
  confidence_drop_threshold : ℚ := 1/5
  confidence_high_threshold : ℚ := 9/10

/-- The `high_confidence_claim` alert for one claim. -/
def highConfidenceAlert (c : Claim) (now : Nat) : Alert :=
  { alert_type := "high_confidence_claim",
    severity := "high",
    message := "High-confidence claim detected: " ++ (String.mk (c.statement.data.take 100)),
    details := [("claim_id", jOfOptStr c.id), ("confidence", .jnum c.confidence),
                ("statement", .jstr c.statement)],
    timestamp := now }

/-- The `well_supported_claim` alert for one claim. -/
def wellSupportedAlert (c : Claim) (now : Nat) : Alert :=
  { alert_type := "well_supported_claim",
    severity := "medium",
    message := "Claim with substantial evidence: " ++ (String.mk (c.statement.data.take 100)),
    details := [("claim_id", jOfOptStr c.id),
                ("total_evidence", .jnum (c.supporting_evidence_ids.length + c.counter_evidence_ids.length)),
                ("supporting_count", .jnum c.supporting_evidence_ids.length),
                ("counter_count", .jnum c.counter_evidence_ids.length)],
    timestamp := now }

/-- The `confidence_drop` alert for one current/previous claim pair. -/
def confidenceDropAlert (c prev : Claim) (now : Nat) : Alert :=
  { alert_type := "confidence_drop",
    severity := "high",
    message := "Significant confidence drop in claim: " ++ (String.mk (c.statement.data.take 100)),
    details := [("claim_id", jOfOptStr c.id),
                ("previous_confidence", .jnum prev.confidence),
                ("current_confidence", .jnum c.confidence),
                ("change", .jnum (c.confidence - prev.confidence))],
    timestamp := now }

/-- The `confidence_increase` alert for one current/previous claim pair. -/
def confidenceIncreaseAlert (c prev : Claim) (now : Nat) : Alert :=
  { alert_type := "confidence_increase",
    severity := "medium",
    message := "Significant confidence increase in claim: " ++ (String.mk (c.statement.data.take 100)),
    details := [("claim_id", jOfOptStr c.id),
                ("previous_confidence", .jnum prev.confidence),
                ("current_confidence", .jnum c.confidence),
                ("change", .jnum (c.confidence - prev.confidence))],
    timestamp := now }

/-- The body of the third loop of `generate_alerts`, for one current
claim: look the id up in the previous-claims map; emit a drop alert on
`delta <= -threshold`, else an increase alert on `delta >= threshold`. -/
def comparisonAlert (threshold : ℚ) (prevMap : List (String × Claim))
    (now : Nat) (c : Claim) : Option Alert :=
  match c.id with
  | none => none
  | some i =>
      match dictGet prevMap i with
      | none => none
      | some prev_claim =>
          let confidence_change := c.confidence - prev_claim.confidence
          if confidence_change ≤ -threshold then
            some (confidenceDropAlert c prev_claim now)
          else if threshold ≤ confidence_change then
            some (confidenceIncreaseAlert c prev_claim now)
          else none

/-- `AlertGenerator.generate_alerts`: high-confidence alerts for all
claims, then well-supported alerts, then (when a non-empty previous list
is given — `if previous_claims:`) one comparison alert per matched pair.
All alerts share one `utcnow` tick. -/
def AlertGenerator.generate_alerts (g : AlertGenerator) (claims : List Claim)
    (previous_claims : Option (List Claim)) (now : Nat) : List Alert :=
  let alerts₁ := claims.filterMap (fun c =>
    if g.confidence_high_threshold ≤ c.confidence then
      some (highConfidenceAlert c now)
    else none)
  let alerts₂ := claims.filterMap (fun c =>
    if 5 ≤ c.supporting_evidence_ids.length + c.counter_evidence_ids.length then
      some (wellSupportedAlert c now)
    else none)
  let alerts₃ : List Alert := match previous_claims with
    | some prev =>
        if prev.isEmpty then []
        else
          let prev_claims_map := buildClaimMap prev
          claims.filterMap (comparisonAlert g.confidence_drop_threshold prev_claims_map now)
    | none => []
  alerts₁ ++ alerts₂ ++ alerts₃

/-- `Alert.to_dict`. -/
def Alert.to_dict (a : Alert) : J :=
  .jobj [("alert_type", .jstr a.alert_type), ("severity", .jstr a.severity),
         ("message", .jstr a.message), ("details", .jobj a.details),
         ("timestamp", .jstr (pyIsoformat a.timestamp))]

/-- The dictionary `generate_summary` returns. -/
structure AlertSummary where
  total_alerts : Nat
  severity_counts : List (String × Nat)
  type_counts : List (String × Nat)
  alerts : List J

/-- `severity_counts[alert.severity] += 1`: `none` models the `KeyError`
raised when the severity is not one of the four pre-initialized keys. -/
def bumpExistingKey (m : List (String × Nat)) (k : String) :
    Option (List (String × Nat)) :=
  match dictGet m k with
  | some n => some (dictInsert m k (n + 1))
  | none => none

/-- `type_counts[t] = type_counts.get(t, 0) + 1`: never fails. -/
def bumpAnyKey (m : List (String × Nat)) (k : String) : List (String × Nat) :=
  dictInsert m k ((dictGet m k).getD 0 + 1)

/-- `AlertGenerator.generate_summary`; `none` models an uncaught
`KeyError` on an alert severity outside the four fixed keys. -/
def AlertGenerator.generate_summary (alerts : List Alert) :
    Option AlertSummary :=
  let init : List (String × Nat) := [("low", 0), ("medium", 0), ("high", 0), ("critical", 0)]
  let counts := alerts.foldlM
    (fun (acc : List (String × Nat) × List (String × Nat)) a =>
      match bumpExistingKey acc.1 a.severity with
      | some m => some (m, bumpAnyKey acc.2 a.alert_type)
      | none => none)
    (init, ([] : List (String × Nat)))
  match counts with
  | none => none
  | some (severity_counts, type_counts) =>
      some { total_alerts := alerts.length,
             severity_counts := severity_counts,
             type_counts := type_counts,
             alerts := alerts.map Alert.to_dict }

/-- Whether a parsed JSON value is an object (a Python `dict`). -/
def J.isObj : J → Bool
  | .jobj _ => true
  | _ => false

/-- Stated from the spec's words: starting at the given id, repeatedly
follow `parent_artifact_id` until it is absent (falsy) or the identifier
cannot be found in the store, building the chain oldest ancestor first.
Fuel-indexed like the loop; `none` means the recursion was still running
when the fuel ran out. -/
def specLineageChain (st : ArtifactStore) : Nat → Option String → Option (List Artifact)
  | 0, _ => none
  | fuel + 1, currentId =>
      match currentId with
      | none => some []
      | some cid =>
          if cid = "" then some []
          else
            match st.get_artifact cid with
            | none => some []
            | some a =>
                (specLineageChain st fuel a.parent_artifact_id).map (· ++ [a])

/-- The store's parent chains are acyclic in the strong, insertion-ordered
sense produced by normal use of `store_artifact`: whenever an entry's
parent id is truthy and present in the store at all, its first occurrence
lies strictly before that entry. -/
def ParentsPointBack (st : ArtifactStore) : Prop :=
  ∀ pre k a post, st.entries = pre ++ (k, a) :: post →
    ∀ p, a.parent_artifact_id = some p → p ≠ "" →
      p ∈ st.entries.map Prod.fst → p ∈ pre.map Prod.fst

/-! ## Concrete instances used by witnesses and counterexamples -/

/-- Artifact `"a"` whose parent is `"b"`. -/
def artAW : Artifact :=
  { id := some "a", artifact_type := .report, content := "v2",
    parent_artifact_id := some "b", timestamp := 2 }

/-- Artifact `"b"` whose parent is `"a"` (cyclic partner of `artAW`). -/
def artBCycW : Artifact :=
  { id := some "b", artifact_type := .report, content := "v1",
    parent_artifact_id := some "a", timestamp := 1 }

/-- Artifact `"b"` with no parent (root of the linear chain). -/
def artBRootW : Artifact :=
  { id := some "b", artifact_type := .report, content := "v1",
    parent_artifact_id := none, timestamp := 1 }

/-- An artifact whose content is the JSON scalar `5`. -/
def artNum5W : Artifact :=
  { id := some "a1", artifact_type := .derived, content := "5", timestamp := 4 }

/-- An artifact whose content is the JSON scalar `6`. -/
def artNum6W : Artifact :=
  { id := some "a1", artifact_type := .derived, content := "6", timestamp := 5 }

/-- An artifact whose content is the JSON object `\x7b"a": 1\x7d`. -/
def artObjAW : Artifact :=
  { id := some "a1", artifact_type := .derived, content := "\x7b\"a\": 1\x7d",
    timestamp := 4 }

/-- An artifact whose content is the JSON object `\x7b"b": 2\x7d`. -/
def artObjBW : Artifact :=
  { id := some "a1", artifact_type := .derived, content := "\x7b\"b\": 2\x7d",
    timestamp := 5 }

/-- A store whose two artifacts form a parent cycle `a → b → a`. -/
def stCycW : ArtifactStore := ⟨[("a", artAW), ("b", artBCycW)]⟩

/-- A store with a well-formed two-element chain: root `"b"` stored first,
then `"a"` with parent `"b"`. -/
def stLinW : ArtifactStore := ⟨[("b", artBRootW), ("a", artAW)]⟩

/-- An evidence store holding one record under id `"e1"`. -/
def esW : EvidenceStore :=
  ⟨[("e1", { id := some "e1", content := "bank statement showing transfer",
             source := "manual", timestamp := 1 })]⟩

/-- An evidence store holding two records (for list-operation witnesses). -/
def esW2 : EvidenceStore :=
  (esW.store_evidence "corporate filing extract" "manual" none none none none none
    "e2" 5).2

/-- A two-reference claim whose supporting ids are listed out of sorted
order (for the fingerprint-invariance witness). -/
def cW : Claim :=
  { id := some "c1", statement := "payment is suspicious", confidence := 1,
    supporting_evidence_ids := ["e2", "e1"], timestamp := 3 }

/-- Before-run claim (for the diff witness). -/
def cAW : Claim :=
  { id := some "c1", statement := "Original", confidence := 1,
    supporting_evidence_ids := ["e1"], timestamp := 1 }

/-- After-run claim with the same id but changed statement and confidence. -/
def cBW : Claim :=
  { id := some "c1", statement := "Modified", confidence := 0,
    supporting_evidence_ids := ["e1"], timestamp := 1 }

/-- An alert generator with the default thresholds written as explicit
rationals. -/
def gW : AlertGenerator :=
  { confidence_drop_threshold := mkRat 1 5, confidence_high_threshold := mkRat 9 10 }

/-- Previous-run claim at confidence 0.9. -/
def cPrevW : Claim :=
  { id := some "c1", statement := "payment is suspicious",
    confidence := mkRat 9 10, supporting_evidence_ids := ["e1"], timestamp := 3 }

/-- Current-run claim at confidence 0.6 (a 0.3 drop). -/
def cCurW : Claim :=
  { id := some "c1", statement := "payment is suspicious",
    confidence := mkRat 6 10, supporting_evidence_ids := ["e1"], timestamp := 9 }

/-- A maximal-confidence claim (for the high-confidence alert witness). -/
def cHiW : Claim :=
  { id := some "c2", statement := "shell company confirmed", confidence := 1,
    supporting_evidence_ids := ["e1"], timestamp := 9 }

/-- Stated from the spec's words: the evidence fingerprint is the SHA-256
of the canonical, key-sorted JSON object holding the content hash (the
field the spec calls `content_hash`, serialized under its code-level key
`sha256`), the ISO-8601 timestamp, and the `"name:version"`-or-null tool
and model tags — written here with the keys already in sorted order and
no sorting applied at serialization time. -/
def specEvidenceFingerprint (e : Evidence) : String :=
  sha256HexOfString (J.dumps (J.jobj [
    ("model", jOfOptStr (provTag e.model_name e.model_version)),
    ("sha256", J.jstr (sha256Hex (utf8Bytes e.content))),
    ("timestamp", J.jstr (pyIsoformat e.timestamp)),
    ("tool", jOfOptStr (provTag e.tool_name e.tool_version))]))

/-! ## Helper lemmas -/

theorem insertSorted_perm {α : Type} (le : α → α → Bool) (x : α) :
    ∀ l : List α, (insertSorted le x l).Perm (x :: l)
  | [] => List.Perm.refl _
  | y :: ys => by
      unfold insertSorted
      by_cases h : le y x = true
      · rw [if_pos h]
        exact ((insertSorted_perm le x ys).cons y).trans (List.Perm.swap x y ys)
      · rw [if_neg h]

theorem foldl_insertSorted_perm {α : Type} (le : α → α → Bool) :
    ∀ (l acc : List α),
      (l.foldl (fun acc x => insertSorted le x acc) acc).Perm (acc ++ l)
  | [], acc => by simp
  | x :: xs, acc => by
      simp only [List.foldl_cons]
      exact ((foldl_insertSorted_perm le xs _).trans
        ((insertSorted_perm le x acc).append_right xs)).trans List.perm_middle.symm

theorem pyStableSort_perm {α : Type} (le : α → α → Bool) (l : List α) :
    (pyStableSort le l).Perm l := by
  simpa [pyStableSort] using foldl_insertSorted_perm le l []

theorem insertSorted_pairwise {α : Type} (le : α → α → Bool)
    (htot : ∀ a b, le a b = true ∨ le b a = true)
    (htrans : ∀ a b c, le a b = true → le b c = true → le a c = true)
    (x : α) :
    ∀ l : List α, l.Pairwise (fun a b => le a b = true) →
      (insertSorted le x l).Pairwise (fun a b => le a b = true)
  | [], _ => by simp [insertSorted]
  | y :: ys, h => by
      rcases List.pairwise_cons.1 h with ⟨h1, h2⟩
      unfold insertSorted
      by_cases hyx : le y x = true
      · simp only [hyx, if_true]
        refine List.pairwise_cons.2 ⟨?_, insertSorted_pairwise le htot htrans x ys h2⟩
        intro z hz
        rcases List.mem_cons.1 ((insertSorted_perm le x ys).mem_iff.1 hz) with rfl | hzys
        · exact hyx
        · exact h1 z hzys
      · simp only [hyx, if_false]
        have hxy : le x y = true := (htot x y).resolve_right hyx
        refine List.pairwise_cons.2 ⟨?_, h⟩
        intro z hz
        rcases List.mem_cons.1 hz with rfl | hzys
        · exact hxy
        · exact htrans x y z hxy (h1 z hzys)

theorem pyStableSort_pairwise {α : Type} (le : α → α → Bool)
    (htot : ∀ a b, le a b = true ∨ le b a = true)
    (htrans : ∀ a b c, le a b = true → le b c = true → le a c = true)
    (l : List α) :
    (pyStableSort le l).Pairwise (fun a b => le a b = true) := by
  suffices h : ∀ (l acc : List α), acc.Pairwise (fun a b => le a b = true) →
      (l.foldl (fun acc x => insertSorted le x acc) acc).Pairwise
        (fun a b => le a b = true) by
    exact h l [] List.Pairwise.nil
  intro l
  induction l with
  | nil => intro acc hacc; simpa using hacc
  | cons x xs ih =>
      intro acc hacc
      simp only [List.foldl_cons]
      exact ih _ (insertSorted_pairwise le htot htrans x acc hacc)

theorem pyStableSort_congr_perm {α : Type} (le : α → α → Bool)
    (htot : ∀ a b, le a b = true ∨ le b a = true)
    (htrans : ∀ a b c, le a b = true → le b c = true → le a c = true)
    (hanti : ∀ a b, le a b = true → le b a = true → a = b)
    {l₁ l₂ : List α} (h : l₁.Perm l₂) :
    pyStableSort le l₁ = pyStableSort le l₂ := by
  haveI : IsAntisymm α (fun a b => le a b = true) := ⟨hanti⟩
  exact List.eq_of_perm_of_sorted (r := fun a b => le a b = true)
    (((pyStableSort_perm le l₁).trans h).trans (pyStableSort_perm le l₂).symm)
    (pyStableSort_pairwise le htot htrans l₁)
    (pyStableSort_pairwise le htot htrans l₂)

theorem pyCharListLe_total : ∀ a b : List Char,
    pyCharListLe a b = true ∨ pyCharListLe b a = true
  | [], _ => Or.inl rfl
  | _ :: _, [] => Or.inr rfl
  | x :: xs, y :: ys => by
      unfold pyCharListLe
      rcases Nat.lt_trichotomy x.toNat y.toNat with h | h | h
      · left; simp [h]
      · have hxy : ¬ x.toNat < y.toNat := by omega
        have hyx : ¬ y.toNat < x.toNat := by omega
        simpa [hxy, hyx] using pyCharListLe_total xs ys
      · right; simp [h]

theorem pyCharListLe_trans : ∀ a b c : List Char,
    pyCharListLe a b = true → pyCharListLe b c = true → pyCharListLe a c = true
  | [], _, _, _, _ => rfl
  | x :: xs, [], c, hab, _ => by simp [pyCharListLe] at hab
  | _ :: _, _ :: _, [], _, hbc => by simp [pyCharListLe] at hbc
  | x :: xs, y :: ys, z :: zs, hab, hbc => by
      unfold pyCharListLe at hab hbc ⊢
      by_cases h₁ : x.toNat < y.toNat
      · by_cases h₂ : y.toNat < z.toNat
        · rw [if_pos (show x.toNat < z.toNat by omega)]
        · rw [if_neg h₂] at hbc
          by_cases h₃ : z.toNat < y.toNat
          · rw [if_pos h₃] at hbc; exact absurd hbc (by simp)
          · rw [if_pos (show x.toNat < z.toNat by omega)]
      · rw [if_neg h₁] at hab
        by_cases h₄ : y.toNat < x.toNat
        · rw [if_pos h₄] at hab; exact absurd hab (by simp)
        · rw [if_neg h₄] at hab
          by_cases h₂ : y.toNat < z.toNat
          · rw [if_pos (show x.toNat < z.toNat by omega)]
          · rw [if_neg h₂] at hbc
            by_cases h₃ : z.toNat < y.toNat
            · rw [if_pos h₃] at hbc; exact absurd hbc (by simp)
            · rw [if_neg h₃] at hbc
              rw [if_neg (show ¬ x.toNat < z.toNat by omega),
                if_neg (show ¬ z.toNat < x.toNat by omega)]
              exact pyCharListLe_trans xs ys zs hab hbc

theorem pyCharListLe_antisymm : ∀ a b : List Char,
    pyCharListLe a b = true → pyCharListLe b a = true → a = b
  | [], [], _, _ => rfl
  | [], _ :: _, _, hba => by simp [pyCharListLe] at hba
  | _ :: _, [], hab, _ => by simp [pyCharListLe] at hab
  | x :: xs, y :: ys, hab, hba => by
      unfold pyCharListLe at hab hba
      rcases Nat.lt_trichotomy x.toNat y.toNat with h | h | h
      · simp [h, Nat.lt_asymm h] at hba
      · have hxy : ¬ x.toNat < y.toNat := by omega
        have hyx : ¬ y.toNat < x.toNat := by omega
        simp only [hxy, hyx, if_neg, if_false] at hab hba
        have hx : x = y := Char.eq_of_val_eq (UInt32.toNat.inj h)
        rw [hx, pyCharListLe_antisymm xs ys hab hba]
      · simp [h, Nat.lt_asymm h] at hab

theorem pySortStrings_congr_perm {l₁ l₂ : List String} (h : l₁.Perm l₂) :
    pySortStrings l₁ = pySortStrings l₂ := by
  unfold pySortStrings
  refine pyStableSort_congr_perm _ ?_ ?_ ?_ h
  · intro a b
    exact pyCharListLe_total a.data b.data
  · intro a b c hab hbc
    exact pyCharListLe_trans a.data b.data c.data hab hbc
  · intro a b hab hba
    exact String.ext (pyCharListLe_antisymm a.data b.data hab hba)

theorem dictContains_iff_mem_keys {α : Type} (m : List (String × α)) (k : String) :
    dictContains m k = true ↔ k ∈ m.map Prod.fst := by
  simp only [dictContains, dictGet, Option.isSome_map']
  rw [List.find?_isSome]
  constructor
  · rintro ⟨p, hp, hpk⟩
    exact List.mem_map.2 ⟨p, hp, by simpa using hpk⟩
  · rintro hk
    rcases List.mem_map.1 hk with ⟨p, hp, rfl⟩
    exact ⟨p, hp, by simp⟩

theorem pyTruncate_none {α : Type} (l : List α) : pyTruncate none l = l := rfl

theorem pyTruncate_zero {α : Type} (l : List α) : pyTruncate (some 0) l = l := by
  simp [pyTruncate]

theorem pyTruncate_nonzero {α : Type} (l : List α) {n : Int} (hn : n ≠ 0) :
    pyTruncate (some n) l = pySliceTo l n := by
  simp [pyTruncate, hn]

/-! ## Claim theorems -/

/-- **C2.** Constructing a `Claim` with both evidence lists empty always
fails with a `ValidationError`; a confidence outside `[0, 1]` always
fails with a `ValidationError` (specifically the range check); and a
construction with at least one reference and confidence in `[0, 1]`
always succeeds. -/
theorem claim_construction_validation
    (statement : String) (confidence : ℚ) (supporting counter : List String)
    (metadata : List (String × J))
    (tool_name tool_version model_name model_version : Option String)
    (timestamp : Nat) :
    (supporting = [] ∧ counter = [] →
      ∃ e : ValidationError,
        mkClaim statement confidence supporting counter metadata
          tool_name tool_version model_name model_version timestamp = .error e)
    ∧ (¬(0 ≤ confidence ∧ confidence ≤ 1) →
      mkClaim statement confidence supporting counter metadata
          tool_name tool_version model_name model_version timestamp
        = .error .confidenceOutOfRange)
    ∧ (1 ≤ supporting.length + counter.length → 0 ≤ confidence → confidence ≤ 1 →
      ∃ c : Claim,
        mkClaim statement confidence supporting counter metadata
          tool_name tool_version model_name model_version timestamp = .ok c) := by
  refine ⟨?_, ?_, ?_⟩
  · rintro ⟨rfl, rfl⟩
    by_cases hconf : 0 ≤ confidence ∧ confidence ≤ 1
    · exact ⟨.noEvidenceRef, by simp [mkClaim, hconf]⟩
    · exact ⟨.confidenceOutOfRange, by simp [mkClaim, hconf]⟩
  · intro hconf
    simp [mkClaim, hconf]
  · intro hlen h0 h1
    unfold mkClaim
    rw [if_neg (not_not_intro ⟨h0, h1⟩), if_neg (by omega)]
    exact ⟨_, rfl⟩

/-- Witness for C2: a claim with one supporting reference and confidence
`0.85` constructs successfully. -/
theorem claim_construction_validation_witness :
    (1 ≤ (["e1"] : List String).length + ([] : List String).length
      ∧ (0 : ℚ) ≤ mkRat 17 20 ∧ mkRat 17 20 ≤ 1)
    ∧ ∃ c : Claim,
        mkClaim "Company X received suspicious payment" (mkRat 17 20) ["e1"] [] []
          none none none none 0 = .ok c :=
  ⟨⟨by decide, by decide, by decide⟩,
    (claim_construction_validation "Company X received suspicious payment"
        (mkRat 17 20) ["e1"] [] [] none none none none 0).2.2
      (by decide) (by decide) (by decide)⟩

/-- **C9.** For every store state, calling a list operation with
`limit = 0` returns the full filtered, sorted sequence (identical to
passing no limit at all); only a non-zero limit truncates, via Python's
`[:limit]` slice. -/
theorem list_limit_zero_returns_all
    (es : EvidenceStore) (cs : ClaimStore) (st : ArtifactStore)
    (source : Option String) (sinceE : Option Nat)
    (min_confidence : Option ℚ) (sinceC : Option Nat)
    (artifact_type : Option ArtifactType) (parent : Option String)
    (sinceA : Option Nat) :
    es.list_evidence source sinceE (some 0) = es.list_evidence source sinceE none
    ∧ cs.list_claims min_confidence sinceC (some 0)
        = cs.list_claims min_confidence sinceC none
    ∧ st.list_artifacts artifact_type parent sinceA (some 0)
        = st.list_artifacts artifact_type parent sinceA none
    ∧ (∀ n : Int, n ≠ 0 →
        es.list_evidence source sinceE (some n)
            = pySliceTo (es.list_evidence source sinceE none) n
        ∧ cs.list_claims min_confidence sinceC (some n)
            = pySliceTo (cs.list_claims min_confidence sinceC none) n
        ∧ st.list_artifacts artifact_type parent sinceA (some n)
            = pySliceTo (st.list_artifacts artifact_type parent sinceA none) n) := by
  refine ⟨?_, ?_, ?_, fun n hn => ⟨?_, ?_, ?_⟩⟩ <;>
      simp only [EvidenceStore.list_evidence, ClaimStore.list_claims,
        ArtifactStore.list_artifacts] <;>
    first
      | exact pyTruncate_zero _
      | exact pyTruncate_nonzero _ hn

/-- Witness for C9: on a two-record evidence store, `limit = 0` returns
everything and `limit = 1` slices. -/
theorem list_limit_zero_returns_all_witness :
    ((1 : Int) ≠ 0)
    ∧ esW2.list_evidence none none (some 0) = esW2.list_evidence none none none
    ∧ esW2.list_evidence none none (some 1)
        = pySliceTo (esW2.list_evidence none none none) 1 :=
  ⟨by decide,
   (list_limit_zero_returns_all esW2 ⟨[]⟩ ⟨[]⟩ none none none none none none none).1,
   ((list_limit_zero_returns_all esW2 ⟨[]⟩ ⟨[]⟩ none none none none none none
      none).2.2.2 1 (by decide)).1⟩

/-- **C1.** `store_claim` fails with a `ReferentialIntegrityError` iff at
least one id in `supporting ++ counter` is absent from the bound evidence
store (the check runs before the `Claim` value is constructed, so it wins
over any construction-time validation failure); on any failure the claim
dict is unchanged, so nothing is registered and `count_claims` is
preserved. -/
theorem store_claim_referential_integrity
    (cs : ClaimStore) (es : EvidenceStore) (statement : String) (confidence : ℚ)
    (supporting : List String) (counter : Option (List String))
    (metadata : Option (List (String × J)))
    (tn tv mn mv : Option String) (freshId : String) (now : Nat) :
    ((∃ m, (cs.store_claim es statement confidence supporting counter metadata
        tn tv mn mv freshId now).1 = .error (.referentialIntegrity m))
      ↔ ∃ i ∈ supporting ++ counter.getD [], es.get_evidence i = none)
    ∧ (∀ err, (cs.store_claim es statement confidence supporting counter metadata
        tn tv mn mv freshId now).1 = .error err →
        (cs.store_claim es statement confidence supporting counter metadata
          tn tv mn mv freshId now).2 = cs
        ∧ (cs.store_claim es statement confidence supporting counter metadata
            tn tv mn mv freshId now).2.count_claims = cs.count_claims) := by
  simp only [ClaimStore.store_claim]
  cases hfind : (supporting ++ counter.getD []).find?
      (fun i => (es.get_evidence i).isNone) with
  | some m =>
      refine ⟨⟨fun _ => ?_, fun _ => ⟨m, rfl⟩⟩, fun err _ => ⟨rfl, rfl⟩⟩
      exact ⟨m, List.mem_of_find?_eq_some hfind,
        Option.isNone_iff_eq_none.1 (by simpa using List.find?_some hfind)⟩
  | none =>
      have hall := List.find?_eq_none.1 hfind
      constructor
      · constructor
        · rintro ⟨m, hm⟩
          cases hmk : mkClaim statement confidence supporting (counter.getD [])
              (metadata.getD []) tn tv mn mv now with
          | error e => rw [hmk] at hm; simp at hm
          | ok c => rw [hmk] at hm; simp at hm
        · rintro ⟨i, hi, hnone⟩
          exact absurd (by simp [hnone] : (es.get_evidence i).isNone = true)
            (by simpa using hall i hi)
      · intro err herr
        cases hmk : mkClaim statement confidence supporting (counter.getD [])
            (metadata.getD []) tn tv mn mv now with
        | error e => exact ⟨rfl, rfl⟩
        | ok c => rw [hmk] at herr; simp at herr

/-- Witness for C1: storing a claim that references the absent id
`"missing-id"` raises the referential error and leaves the count at zero. -/
theorem store_claim_referential_integrity_witness :
    (ClaimStore.store_claim ⟨[]⟩ esW "Suspicious payment" 1 ["missing-id"] none
        none none none none none "c1" 2).1
      = .error (.referentialIntegrity "missing-id")
    ∧ (ClaimStore.store_claim ⟨[]⟩ esW "Suspicious payment" 1 ["missing-id"] none
        none none none none none "c1" 2).2.count_claims
      = ClaimStore.count_claims ⟨[]⟩ :=
  ⟨rfl,
   ((store_claim_referential_integrity ⟨[]⟩ esW "Suspicious payment" 1
      ["missing-id"] none none none none none none "c1" 2).2
     (.referentialIntegrity "missing-id") rfl).2⟩

theorem sortKeys_jOfOptStr (o : Option String) :
    J.sortKeys (jOfOptStr o) = jOfOptStr o := by
  cases o <;> simp [jOfOptStr, J.sortKeys]

theorem sortPairs_evidence_fp (v1 v2 v3 v4 : J) :
    sortPairsByKey [("sha256", v1), ("timestamp", v2), ("tool", v3), ("model", v4)]
      = [("model", v4), ("sha256", v1), ("timestamp", v2), ("tool", v3)] := rfl

/-- **C8.** `run_fingerprint` is invariant under any permutation of the
supporting list and any permutation of the counter list (both are sorted
before hashing), while `evidence_refs` preserves the stored order as
supporting followed by counter. -/
theorem run_fingerprint_evidence_order_invariant
    (c : Claim) (s' t' : List String)
    (hs : s'.Perm c.supporting_evidence_ids) (ht : t'.Perm c.counter_evidence_ids) :
    ({ c with supporting_evidence_ids := s', counter_evidence_ids := t' } : Claim).run_fingerprint
        = c.run_fingerprint
    ∧ ({ c with supporting_evidence_ids := s', counter_evidence_ids := t' } : Claim).evidence_refs
        = s' ++ t'
    ∧ c.evidence_refs = c.supporting_evidence_ids ++ c.counter_evidence_ids := by
  refine ⟨?_, rfl, rfl⟩
  unfold Claim.run_fingerprint
  rw [pySortStrings_congr_perm hs, pySortStrings_congr_perm ht]

/-- Witness for C8: reordering `cW`'s supporting ids leaves its
fingerprint unchanged. -/
theorem run_fingerprint_evidence_order_invariant_witness :
    (["e1", "e2"] : List String).Perm cW.supporting_evidence_ids
    ∧ ({ cW with supporting_evidence_ids := ["e1", "e2"] } : Claim).run_fingerprint
        = cW.run_fingerprint :=
  ⟨by decide,
   (run_fingerprint_evidence_order_invariant cW ["e1", "e2"] []
      (by decide) (by decide)).1⟩


/-- **C3.** `content_hash` (the `sha256` field) is the hex SHA-256 of the
UTF-8 content bytes, and `fingerprint` is the SHA-256 of the canonical
key-sorted JSON object over the content hash, ISO-8601 timestamp, and
tool/model `"name:version"`-or-null tags, as `specEvidenceFingerprint`
spells out with the keys pre-sorted. -/
theorem evidence_content_hash_and_fingerprint (e : Evidence) :
    e.sha256 = sha256Hex (utf8Bytes e.content)
    ∧ e.fingerprint = specEvidenceFingerprint e := by
  refine ⟨rfl, ?_⟩
  unfold Evidence.fingerprint specEvidenceFingerprint J.dumpsSorted
  simp only [J.sortKeys, J.sortKeysObj, sortKeys_jOfOptStr]
  rw [sortPairs_evidence_fp]
  rfl

/-- **C6.** With a (non-empty) previous claim set, `generate_alerts`
appends, after the two per-claim blocks, exactly one comparison alert per
current claim whose id maps to a previous claim: a `confidence_drop` of
severity `high` when `delta <= -threshold`, otherwise a
`confidence_increase` of severity `medium` when `delta >= threshold`,
otherwise nothing — the drop branch is checked first, so at most one of
the two fires per pair. -/
theorem generate_alerts_confidence_pairs
    (g : AlertGenerator) (claims prev : List Claim) (now : Nat)
    (hprev : prev ≠ []) :
    g.generate_alerts claims (some prev) now
      = g.generate_alerts claims none now
        ++ claims.filterMap
            (comparisonAlert g.confidence_drop_threshold (buildClaimMap prev) now)
    ∧ (∀ (c prevClaim : Claim) (i : String), c.id = some i →
        dictGet (buildClaimMap prev) i = some prevClaim →
        ((c.confidence - prevClaim.confidence ≤ -g.confidence_drop_threshold →
          comparisonAlert g.confidence_drop_threshold (buildClaimMap prev) now c
              = some (confidenceDropAlert c prevClaim now)
            ∧ (confidenceDropAlert c prevClaim now).alert_type = "confidence_drop"
            ∧ (confidenceDropAlert c prevClaim now).severity = "high")
        ∧ (¬ c.confidence - prevClaim.confidence ≤ -g.confidence_drop_threshold →
            g.confidence_drop_threshold ≤ c.confidence - prevClaim.confidence →
          comparisonAlert g.confidence_drop_threshold (buildClaimMap prev) now c
              = some (confidenceIncreaseAlert c prevClaim now)
            ∧ (confidenceIncreaseAlert c prevClaim now).alert_type
                = "confidence_increase"
            ∧ (confidenceIncreaseAlert c prevClaim now).severity = "medium")
        ∧ (¬ c.confidence - prevClaim.confidence ≤ -g.confidence_drop_threshold →
            ¬ g.confidence_drop_threshold ≤ c.confidence - prevClaim.confidence →
          comparisonAlert g.confidence_drop_threshold (buildClaimMap prev) now c
              = none))) := by
  constructor
  · have hne : prev.isEmpty = false := by
      cases prev with
      | nil => exact absurd rfl hprev
      | cons a l => rfl
    simp [AlertGenerator.generate_alerts, hne]
  · intro c prevClaim i hid hget
    unfold comparisonAlert
    simp only [hid, hget]
    refine ⟨fun hdrop => ⟨by rw [if_pos hdrop], rfl, rfl⟩,
            fun hnodrop hinc => ⟨by rw [if_neg hnodrop, if_pos hinc], rfl, rfl⟩,
            fun hnodrop hnoinc => by rw [if_neg hnodrop, if_neg hnoinc]⟩

unseal Rat.sub in
/-- Witness for C6: confidence 0.9 → 0.6 with threshold 0.2 produces the
drop alert of severity `high` on the matched pair. -/
theorem generate_alerts_confidence_pairs_witness :
    ([cPrevW] : List Claim) ≠ []
    ∧ cCurW.id = some "c1"
    ∧ dictGet (buildClaimMap [cPrevW]) "c1" = some cPrevW
    ∧ cCurW.confidence - cPrevW.confidence ≤ -gW.confidence_drop_threshold
    ∧ comparisonAlert gW.confidence_drop_threshold (buildClaimMap [cPrevW]) 9 cCurW
        = some (confidenceDropAlert cCurW cPrevW 9)
    ∧ (confidenceDropAlert cCurW cPrevW 9).severity = "high"
    ∧ gW.generate_alerts [cCurW] (some [cPrevW]) 9
        = gW.generate_alerts [cCurW] none 9
          ++ [cCurW].filterMap
              (comparisonAlert gW.confidence_drop_threshold (buildClaimMap [cPrevW]) 9) :=
  ⟨by simp, rfl, rfl, by decide,
   (((generate_alerts_confidence_pairs gW [cCurW] [cPrevW] 9 (by simp)).2
      cCurW cPrevW "c1" rfl rfl).1 (by decide)).1,
   (((generate_alerts_confidence_pairs gW [cCurW] [cPrevW] 9 (by simp)).2
      cCurW cPrevW "c1" rfl rfl).1 (by decide)).2.2,
   (generate_alerts_confidence_pairs gW [cCurW] [cPrevW] 9 (by simp)).1⟩

theorem dictGet_cons {α : Type} (p : String × α) (rest : List (String × α))
    (k : String) :
    dictGet (p :: rest) k = if p.1 = k then some p.2 else dictGet rest k := by
  unfold dictGet
  rw [List.find?_cons]
  by_cases h : p.1 = k <;> simp [h]

theorem dictInsert_keys_of_contains {α : Type} :
    ∀ (m : List (String × α)) (k : String) (v : α),
      dictContains m k = true →
      (dictInsert m k v).map Prod.fst = m.map Prod.fst
  | [], k, v, h => by simp [dictContains, dictGet] at h
  | p :: rest, k, v, h => by
      unfold dictInsert
      by_cases hk : p.1 = k
      · rw [if_pos hk]
        simp [hk]
      · rw [if_neg hk]
        have hrest : dictContains rest k = true := by
          unfold dictContains at h ⊢
          rwa [dictGet_cons, if_neg hk] at h
        simp only [List.map_cons, dictInsert_keys_of_contains rest k v hrest]

theorem comparisonAlert_severity (t : ℚ) (m : List (String × Claim)) (now : Nat)
    (c : Claim) (a : Alert) (h : comparisonAlert t m now c = some a) :
    a.severity = "high" ∨ a.severity = "medium" := by
  unfold comparisonAlert at h
  cases hc : c.id with
  | none => rw [hc] at h; simp at h
  | some i =>
      simp only [hc] at h
      cases hg : dictGet m i with
      | none => simp only [hg] at h; simp at h
      | some p =>
          simp only [hg] at h
          split_ifs at h with h1 h2
          · injection h with h; subst h; left; rfl
          · injection h with h; subst h; right; rfl

theorem summary_fold_ok :
    ∀ (alerts : List Alert) (sc tc : List (String × Nat)),
      (∀ a ∈ alerts, dictContains sc a.severity = true) →
      ∃ sc2 tc2,
        alerts.foldlM
          (fun (acc : List (String × Nat) × List (String × Nat)) a =>
            match bumpExistingKey acc.1 a.severity with
            | some m => some (m, bumpAnyKey acc.2 a.alert_type)
            | none => none)
          (sc, tc) = some (sc2, tc2)
        ∧ sc2.map Prod.fst = sc.map Prod.fst
  | [], sc, tc, _ => ⟨sc, tc, rfl, rfl⟩
  | a :: rest, sc, tc, h => by
      have ha := h a (List.mem_cons_self a rest)
      obtain ⟨n, hn⟩ := Option.isSome_iff_exists.1 ha
      have hbump : bumpExistingKey sc a.severity
          = some (dictInsert sc a.severity (n + 1)) := by
        unfold bumpExistingKey
        rw [hn]
      have hkeys : (dictInsert sc a.severity (n + 1)).map Prod.fst
          = sc.map Prod.fst := dictInsert_keys_of_contains sc a.severity (n + 1) ha
      have hcond : ∀ b ∈ rest, dictContains (dictInsert sc a.severity (n + 1))
          b.severity = true := by
        intro b hb
        have := h b (List.mem_cons_of_mem a hb)
        rw [dictContains_iff_mem_keys] at this ⊢
        rwa [hkeys]
      obtain ⟨sc2, tc2, hfold, hk2⟩ :=
        summary_fold_ok rest (dictInsert sc a.severity (n + 1))
          (bumpAnyKey tc a.alert_type) hcond
      refine ⟨sc2, tc2, ?_, hk2.trans hkeys⟩
      rw [List.foldlM_cons, hbump]
      exact hfold

/-- **C10.** Every alert `generate_alerts` produces has severity `high`
or `medium` (never `low` or `critical`); consequently `generate_summary`
on any `generate_alerts` output succeeds (it only ever increments the
pre-initialized severity keys, raising no `KeyError`), keeps exactly the
four fixed severity keys, and reports `total_alerts` equal to the number
of input alerts. -/
theorem alerts_severity_and_summary
    (g : AlertGenerator) (claims : List Claim)
    (previous : Option (List Claim)) (now : Nat) :
    (∀ a ∈ g.generate_alerts claims previous now,
      a.severity = "high" ∨ a.severity = "medium")
    ∧ ∃ s, AlertGenerator.generate_summary (g.generate_alerts claims previous now)
          = some s
        ∧ s.total_alerts = (g.generate_alerts claims previous now).length
        ∧ s.severity_counts.map Prod.fst = ["low", "medium", "high", "critical"] := by
  have hsev : ∀ a ∈ g.generate_alerts claims previous now,
      a.severity = "high" ∨ a.severity = "medium" := by
    intro a ha
    unfold AlertGenerator.generate_alerts at ha
    rcases List.mem_append.1 ha with h12 | h3
    · rcases List.mem_append.1 h12 with h1 | h2
      · rcases List.mem_filterMap.1 h1 with ⟨c, _, hc⟩
        split_ifs at hc
        injection hc with hc; subst hc; left; rfl
      · rcases List.mem_filterMap.1 h2 with ⟨c, _, hc⟩
        split_ifs at hc
        injection hc with hc; subst hc; right; rfl
    · cases hp : previous with
      | none => rw [hp] at h3; simp at h3
      | some prev =>
          simp only [hp] at h3
          by_cases he : prev.isEmpty
          · simp only [he, if_true] at h3; simp at h3
          · simp only [he, if_false] at h3
            rcases List.mem_filterMap.1 h3 with ⟨c, _, hc⟩
            exact comparisonAlert_severity _ _ _ _ _ hc
  refine ⟨hsev, ?_⟩
  obtain ⟨sc2, tc2, hfold, hkeys⟩ :=
    summary_fold_ok (g.generate_alerts claims previous now)
      [("low", 0), ("medium", 0), ("high", 0), ("critical", 0)] []
      (by
        intro a ha
        rcases hsev a ha with h | h <;> rw [h] <;> rfl)
  simp only [AlertGenerator.generate_summary]
  rw [hfold]
  exact ⟨_, rfl, rfl, by simpa using hkeys⟩

/-- Witness for C10: a single maximal-confidence claim yields exactly the
high-confidence alert, whose severity the theorem pins to high/medium. -/
theorem alerts_severity_and_summary_witness :
    gW.generate_alerts [cHiW] none 9 = [highConfidenceAlert cHiW 9]
    ∧ highConfidenceAlert cHiW 9 ∈ gW.generate_alerts [cHiW] none 9
    ∧ ((highConfidenceAlert cHiW 9).severity = "high"
        ∨ (highConfidenceAlert cHiW 9).severity = "medium") :=
  ⟨rfl, List.mem_singleton.2 rfl,
   (alerts_severity_and_summary gW [cHiW] none 9).1 _ (List.mem_singleton.2 rfl)⟩

theorem dictContains_of_get {α : Type} {m : List (String × α)} {k : String}
    {v : α} (h : dictGet m k = some v) : dictContains m k = true := by
  unfold dictContains
  rw [h]
  rfl

/-- **C4.** `compute_run_diff` adds exactly the ids present only in the
`after` map, removes exactly the ids present only in the `before` map
(claims with a falsy id excluded from both maps), marks an id present in
both as modified exactly when statement, confidence, or `run_fingerprint`
differ — recording the signed `confidence_delta = after - before` and the
three changed-field flags — and reports
`total_changes = |added| + |removed| + |modified|`. -/
theorem compute_run_diff_characterization (claims_a claims_b : List Claim) :
    (∀ i, i ∈ (compute_run_diff claims_a claims_b).added_claims ↔
      (dictContains (buildClaimMap claims_b) i = true
        ∧ dictContains (buildClaimMap claims_a) i = false))
    ∧ (∀ i, i ∈ (compute_run_diff claims_a claims_b).removed_claims ↔
      (dictContains (buildClaimMap claims_a) i = true
        ∧ dictContains (buildClaimMap claims_b) i = false))
    ∧ (∀ (i : String) (ca cb : Claim),
        dictGet (buildClaimMap claims_a) i = some ca →
        dictGet (buildClaimMap claims_b) i = some cb →
        ((∃ m ∈ (compute_run_diff claims_a claims_b).modified_claims, m.id = i)
            ↔ claimsDiffer ca cb = true)
        ∧ (∀ m ∈ (compute_run_diff claims_a claims_b).modified_claims, m.id = i →
            m.statement_changed = decide (ca.statement ≠ cb.statement)
            ∧ m.confidence_changed = decide (ca.confidence ≠ cb.confidence)
            ∧ m.confidence_delta = cb.confidence - ca.confidence
            ∧ m.fingerprint_changed = decide (ca.run_fingerprint ≠ cb.run_fingerprint)))
    ∧ (compute_run_diff claims_a claims_b).total_changes
        = (compute_run_diff claims_a claims_b).added_claims.length
          + (compute_run_diff claims_a claims_b).removed_claims.length
          + (compute_run_diff claims_a claims_b).modified_claims.length := by
  refine ⟨?_, ?_, ?_, rfl⟩
  · intro i
    simp only [compute_run_diff, List.mem_filter]
    rw [← dictContains_iff_mem_keys]
    constructor
    · rintro ⟨h1, h2⟩
      exact ⟨h1, by simpa using h2⟩
    · rintro ⟨h1, h2⟩
      exact ⟨h1, by simpa using h2⟩
  · intro i
    simp only [compute_run_diff, List.mem_filter]
    rw [← dictContains_iff_mem_keys]
    constructor
    · rintro ⟨h1, h2⟩
      exact ⟨h1, by simpa using h2⟩
    · rintro ⟨h1, h2⟩
      exact ⟨h1, by simpa using h2⟩
  · intro i ca cb hga hgb
    have hca : dictContains (buildClaimMap claims_a) i = true := dictContains_of_get hga
    have hcb : dictContains (buildClaimMap claims_b) i = true := dictContains_of_get hgb
    have hcommon : i ∈ (List.filter (fun j => dictContains (buildClaimMap claims_b) j)
        ((buildClaimMap claims_a).map Prod.fst)) :=
      List.mem_filter.2 ⟨(dictContains_iff_mem_keys _ _).1 hca, hcb⟩
    constructor
    · constructor
      · rintro ⟨m, hm, hmid⟩
        simp only [compute_run_diff] at hm
        rcases List.mem_filterMap.1 hm with ⟨j, hj, hfj⟩
        cases hja : dictGet (buildClaimMap claims_a) j with
        | none => simp only [hja] at hfj; exact Option.noConfusion hfj
        | some ca2 =>
            cases hjb : dictGet (buildClaimMap claims_b) j with
            | none => simp only [hja, hjb] at hfj; exact Option.noConfusion hfj
            | some cb2 =>
                simp only [hja, hjb] at hfj
                by_cases hd : claimsDiffer ca2 cb2 = true
                · rw [if_pos hd] at hfj
                  injection hfj with hfj
                  have hji : j = i := by rw [← hmid, ← hfj]
                  subst hji
                  rw [hja] at hga
                  rw [hjb] at hgb
                  injection hga with hga
                  injection hgb with hgb
                  rwa [hga, hgb] at hd
                · rw [if_neg hd] at hfj
                  simp at hfj
      · intro hd
        refine ⟨{ id := i,
                  statement_changed := decide (ca.statement ≠ cb.statement),
                  confidence_changed := decide (ca.confidence ≠ cb.confidence),
                  confidence_delta := cb.confidence - ca.confidence,
                  fingerprint_changed := decide (ca.run_fingerprint ≠ cb.run_fingerprint) },
                ?_, rfl⟩
        simp only [compute_run_diff]
        refine List.mem_filterMap.2 ⟨i, hcommon, ?_⟩
        simp only [hga, hgb]
        rw [if_pos hd]
    · intro m hm hmid
      simp only [compute_run_diff] at hm
      rcases List.mem_filterMap.1 hm with ⟨j, hj, hfj⟩
      cases hja : dictGet (buildClaimMap claims_a) j with
      | none => simp only [hja] at hfj; exact Option.noConfusion hfj
      | some ca2 =>
          cases hjb : dictGet (buildClaimMap claims_b) j with
          | none => simp only [hja, hjb] at hfj; exact Option.noConfusion hfj
          | some cb2 =>
              simp only [hja, hjb] at hfj
              by_cases hd : claimsDiffer ca2 cb2 = true
              · rw [if_pos hd] at hfj
                injection hfj with hfj
                have hji : j = i := by rw [← hmid, ← hfj]
                subst hji
                rw [hja] at hga
                rw [hjb] at hgb
                injection hga with hga
                injection hgb with hgb
                subst hga
                subst hgb
                cases hfj
                exact ⟨rfl, rfl, rfl, rfl⟩
              · rw [if_neg hd] at hfj
                simp at hfj

theorem dictGet_none_of_not_mem {α : Type} (m : List (String × α)) (k : String)
    (h : k ∉ m.map Prod.fst) : dictGet m k = none := by
  cases hg : dictGet m k with
  | none => rfl
  | some v =>
      exact absurd ((dictContains_iff_mem_keys m k).1 (dictContains_of_get hg)) h

theorem dict_first_decomp {α : Type} :
    ∀ (m : List (String × α)) (k : String) (v : α), dictGet m k = some v →
      ∃ pre post, m = pre ++ (k, v) :: post ∧ k ∉ pre.map Prod.fst
  | [], k, v, h => by simp [dictGet] at h
  | (k2, v2) :: rest, k, v, h => by
      rw [dictGet_cons] at h
      by_cases hk : k2 = k
      · rw [if_pos hk] at h
        injection h with h
        have hv : v2 = v := h
        exact ⟨[], rest, by rw [hk, hv]; rfl, by simp⟩
      · rw [if_neg hk] at h
        obtain ⟨pre, post, hd, hn⟩ := dict_first_decomp rest k v h
        refine ⟨(k2, v2) :: pre, post, by rw [hd]; rfl, ?_⟩
        simp only [List.map_cons, List.mem_cons]
        rintro (rfl | hmem)
        · exact hk rfl
        · exact hn hmem

theorem first_decomp_unique {α : Type} :
    ∀ (pre1 pre2 : List (String × α)) (k : String) (v1 v2 : α)
      (post1 post2 : List (String × α)),
      pre1 ++ (k, v1) :: post1 = pre2 ++ (k, v2) :: post2 →
      k ∉ pre1.map Prod.fst → k ∉ pre2.map Prod.fst → pre1 = pre2
  | [], [], _, _, _, _, _, _, _, _ => rfl
  | [], (p, w) :: pre2, k, v1, v2, post1, post2, h, _, hn2 => by
      simp only [List.nil_append, List.cons_append, List.cons.injEq] at h
      have hkp : k = p := congrArg Prod.fst h.1
      exact absurd (by rw [hkp]; simp) hn2
  | (p, w) :: pre1, [], k, v1, v2, post1, post2, h, hn1, _ => by
      simp only [List.nil_append, List.cons_append, List.cons.injEq] at h
      have hkp : k = p := (congrArg Prod.fst h.1).symm
      exact absurd (by rw [hkp]; simp) hn1
  | (p1, w1) :: pre1, (p2, w2) :: pre2, k, v1, v2, post1, post2, h, hn1, hn2 => by
      simp only [List.cons_append, List.cons.injEq] at h
      obtain ⟨hhead, htail⟩ := h
      injection hhead with hp hw
      subst hp
      subst hw
      have hrec := first_decomp_unique pre1 pre2 k v1 v2 post1 post2 htail
        (by intro hm; exact hn1 (by simp [hm]))
        (by intro hm; exact hn2 (by simp [hm]))
      rw [hrec]

theorem mem_prefix_first_decomp {α : Type} :
    ∀ (pre rest : List (String × α)) (p : String), p ∈ pre.map Prod.fst →
      ∃ v pre2 post2, pre ++ rest = pre2 ++ (p, v) :: post2
        ∧ p ∉ pre2.map Prod.fst ∧ pre2.length < pre.length
  | [], _, p, hm => by simp at hm
  | (k2, v2) :: pre, rest, p, hm => by
      by_cases hk : k2 = p
      · exact ⟨v2, [], pre ++ rest, by rw [hk]; rfl, by simp, by simp⟩
      · have hm2 : p ∈ pre.map Prod.fst := by
          rcases List.mem_cons.1 (by simpa only [List.map_cons] using hm) with h | h
          · exact absurd h.symm hk
          · exact h
        obtain ⟨v, pre2, post2, hd, hn, hl⟩ := mem_prefix_first_decomp pre rest p hm2
        refine ⟨v, (k2, v2) :: pre2, post2, by simp only [List.cons_append, hd], ?_, by simpa using hl⟩
        simp only [List.map_cons, List.mem_cons]
        rintro (rfl | hmem)
        · exact hk rfl
        · exact hn hmem

theorem specLineage_mono (st : ArtifactStore) :
    ∀ (f1 f2 : Nat), f1 ≤ f2 → ∀ (cid : Option String) (l : List Artifact),
      specLineageChain st f1 cid = some l → specLineageChain st f2 cid = some l
  | 0, _, _, _, _, h => by simp [specLineageChain] at h
  | f1 + 1, 0, hle, _, _, _ => by omega
  | f1 + 1, f2 + 1, hle, cid, l, h => by
      cases cid with
      | none => exact h
      | some c =>
          by_cases hc : c = ""
          · simpa [specLineageChain, hc] using h
          · cases hget : st.get_artifact c with
            | none => simp_all [specLineageChain]
            | some a =>
                simp only [specLineageChain, hc, if_neg, hget] at h ⊢
                rcases Option.map_eq_some'.1 h with ⟨l0, hl0, rfl⟩
                rw [specLineage_mono st f1 f2 (by omega) a.parent_artifact_id l0 hl0]
                rfl

theorem specLineage_loop_sim (st : ArtifactStore) :
    ∀ (fuel : Nat) (cid : Option String) (l : List Artifact),
      specLineageChain st fuel cid = some l →
      ∀ acc, lineageLoop st fuel cid acc = some (l ++ acc)
  | 0, _, _, h, _ => by simp [specLineageChain] at h
  | fuel + 1, none, l, h, acc => by
      simp only [specLineageChain] at h
      injection h with h
      simp [lineageLoop, ← h]
  | fuel + 1, some c, l, h, acc => by
      by_cases hc : c = ""
      · simp only [specLineageChain, hc, if_pos] at h
        injection h with h
        simp [lineageLoop, hc, ← h]
      · cases hget : st.get_artifact c with
        | none =>
            simp only [specLineageChain, hc, if_neg, hget] at h
            injection h with h
            simp [lineageLoop, hc, hget, ← h]
        | some a =>
            simp only [specLineageChain, hc, if_neg, hget] at h
            rcases Option.map_eq_some'.1 h with ⟨l0, hl0, rfl⟩
            have hrec := specLineage_loop_sim st fuel a.parent_artifact_id l0 hl0 (a :: acc)
            simp only [lineageLoop, hc, if_neg, hget]
            rw [hrec]
            simp

theorem specLineage_some_of_bound (st : ArtifactStore) (hpb : ParentsPointBack st) :
    ∀ (n : Nat) (cid : String),
      (∀ v pre post, st.entries = pre ++ (cid, v) :: post →
        cid ∉ pre.map Prod.fst → pre.length < n) →
      ∃ l, specLineageChain st (n + 1) (some cid) = some l := by
  intro n
  induction n using Nat.strong_induction_on with
  | _ n ih =>
      intro cid hbound
      by_cases hc : cid = ""
      · exact ⟨[], by simp [specLineageChain, hc]⟩
      · cases hget : st.get_artifact cid with
        | none => exact ⟨[], by simp [specLineageChain, hc, hget]⟩
        | some a =>
            obtain ⟨pre, post, hdecomp, hnotin⟩ :=
              dict_first_decomp st.entries cid a
                (by simpa [ArtifactStore.get_artifact] using hget)
            have hlen : pre.length < n := hbound a pre post hdecomp hnotin
            obtain ⟨m, rfl⟩ : ∃ m, n = m + 1 := ⟨n - 1, by omega⟩
            cases hpar : a.parent_artifact_id with
            | none =>
                refine ⟨[] ++ [a], ?_⟩
                simp [specLineageChain, hc, hget, hpar]
            | some p =>
                by_cases hpe : p = ""
                · refine ⟨[] ++ [a], ?_⟩
                  simp [specLineageChain, hc, hget, hpar, hpe]
                · by_cases hpmem : p ∈ st.entries.map Prod.fst
                  · have hppre : p ∈ pre.map Prod.fst :=
                      hpb pre cid a post hdecomp p hpar hpe hpmem
                    obtain ⟨v, pre2, post2, hd2, hn2, hl2⟩ :=
                      mem_prefix_first_decomp pre ((cid, a) :: post) p hppre
                    rw [← hdecomp] at hd2
                    have hbound2 : ∀ v3 pre3 post3,
                        st.entries = pre3 ++ (p, v3) :: post3 →
                        p ∉ pre3.map Prod.fst → pre3.length < pre2.length + 1 := by
                      intro v3 pre3 post3 hd3 hn3
                      have hpp : pre2 = pre3 :=
                        first_decomp_unique pre2 pre3 p v v3 post2 post3
                          (by rw [← hd2, ← hd3]) hn2 hn3
                      subst hpp
                      omega
                    obtain ⟨l0, hl0⟩ := ih (pre2.length + 1) (by omega) p hbound2
                    have hl0m : specLineageChain st (m + 1) (some p) = some l0 :=
                      specLineage_mono st (pre2.length + 2) (m + 1) (by omega) _ _ hl0
                    refine ⟨l0 ++ [a], ?_⟩
                    simp [specLineageChain, hc, hget, hpar]
                    simpa [specLineageChain, hpe] using hl0m
                  · refine ⟨[] ++ [a], ?_⟩
                    have hpnone : st.get_artifact p = none :=
                      dictGet_none_of_not_mem st.entries p hpmem
                    simp [specLineageChain, hc, hget, hpar, hpe, hpnone]

/-- **C5 (amended).** On every store whose parent chains are acyclic (in
the insertion-ordered sense of `ParentsPointBack`, the situation ordinary
use of `store_artifact` produces), `get_artifact_lineage` terminates for
every id and returns the parent chain ordered oldest ancestor first,
ending without error as soon as the parent id is falsy or not found; the
fuel-free recursive chain `specLineageChain` agrees with the loop. The
unconditional termination the original claim states is refuted by the
cyclic-store counterexample. -/
theorem get_artifact_lineage_terminates_of_acyclic
    (st : ArtifactStore) (hpb : ParentsPointBack st) (artifactId : String) :
    ∃ fuel l, st.get_artifact_lineage fuel artifactId = some l
      ∧ specLineageChain st fuel (some artifactId) = some l := by
  obtain ⟨l, hl⟩ := specLineage_some_of_bound st hpb st.entries.length artifactId
    (by
      intro v pre post hd _
      have hlen := congrArg List.length hd
      simp only [List.length_append, List.length_cons] at hlen
      omega)
  refine ⟨st.entries.length + 1, l, ?_, hl⟩
  have hsim := specLineage_loop_sim st (st.entries.length + 1) (some artifactId) l hl []
  simpa [ArtifactStore.get_artifact_lineage] using hsim

/-- The loop state in the cyclic store `stCycW` alternates between ids
`"a"` and `"b"` forever: no amount of fuel completes it. -/
theorem lineage_cycle_aux : ∀ (fuel : Nat) (acc : List Artifact),
    lineageLoop stCycW fuel (some "a") acc = none
    ∧ lineageLoop stCycW fuel (some "b") acc = none
  | 0, _ => ⟨rfl, rfl⟩
  | fuel + 1, acc => ⟨(lineage_cycle_aux fuel (artAW :: acc)).2,
                      (lineage_cycle_aux fuel (artBCycW :: acc)).1⟩

/-- **C5 (counterexample).** On the concrete store whose two artifacts
reference each other as parents, `get_artifact_lineage "a"` never
terminates, refuting the claim that the walk terminates on every store
state, however malformed. -/
theorem get_artifact_lineage_cycle_diverges : ¬ LineageTerminates stCycW "a" := by
  rintro ⟨fuel, hf⟩
  unfold ArtifactStore.get_artifact_lineage at hf
  rw [(lineage_cycle_aux fuel []).1] at hf
  simp at hf

/-- Witness for C5 (amended): the two-element linear store satisfies the
acyclicity hypothesis, and the lineage walk from `"a"` terminates. -/
theorem get_artifact_lineage_terminates_of_acyclic_witness :
    ParentsPointBack stLinW
    ∧ ∃ fuel l, stLinW.get_artifact_lineage fuel "a" = some l
        ∧ specLineageChain stLinW fuel (some "a") = some l := by
  have hpb : ParentsPointBack stLinW := by
    intro pre k a post h p hp hpne hpmem
    cases pre with
    | nil =>
        simp only [stLinW, List.nil_append, List.cons.injEq] at h
        obtain ⟨h1, _⟩ := h
        injection h1 with hk ha
        rw [← ha] at hp
        exact absurd hp (by simp [artBRootW])
    | cons x pre2 =>
        cases pre2 with
        | nil =>
            simp only [stLinW, List.cons_append, List.nil_append,
              List.cons.injEq] at h
            obtain ⟨hx, h3, _⟩ := h
            injection h3 with hk ha
            rw [← ha] at hp
            have hpb2 : p = "b" := by
              have : some "b" = some p := by simpa [artAW] using hp
              injection this with this
              exact this.symm
            rw [hpb2, ← hx]
            simp
        | cons y pre3 =>
            have hlen := congrArg List.length h
            simp [stLinW] at hlen
  exact ⟨hpb, get_artifact_lineage_terminates_of_acyclic stLinW hpb "a"⟩

/-- Witness for C4: two one-claim runs sharing id `"c1"` with a changed
statement produce a modified entry for that id. -/
theorem compute_run_diff_characterization_witness :
    dictGet (buildClaimMap [cAW]) "c1" = some cAW
    ∧ dictGet (buildClaimMap [cBW]) "c1" = some cBW
    ∧ claimsDiffer cAW cBW = true
    ∧ (∃ m ∈ (compute_run_diff [cAW] [cBW]).modified_claims, m.id = "c1") :=
  ⟨rfl, rfl, rfl,
   ((compute_run_diff_characterization [cAW] [cBW]).2.2.1 "c1" cAW cBW
      rfl rfl).1.mpr rfl⟩

unseal Rat.add Rat.mul Rat.inv Rat.sub Rat.ofScientific in
/-- **C7 (counterexample).** Both contents parse as JSON, but as scalars,
not structured key/value data; instead of falling back to the opaque
marker, `compute_artifact_diff` raises (`_compute_dict_diff` calls
`.keys()` on an `int`, an `AttributeError` the `except` clause does not
catch). -/
theorem compute_artifact_diff_scalar_json_raises :
    compute_artifact_diff artNum5W artNum6W = .error .attributeError
    ∧ pyJsonLoads artNum5W.content = some (J.jnum 5)
    ∧ pyJsonLoads artNum6W.content = some (J.jnum 6) :=
  ⟨rfl, rfl, rfl⟩

/-- **C7 (amended).** `content_diff` is populated only when
`content_match` is false; when populated it is the per-key dict diff when
both contents parse as JSON objects, and the opaque "Raw content differs"
marker when either side fails to parse as JSON; but when both sides parse
and at least one is not an object, the function raises `AttributeError`
instead of falling back. -/
theorem compute_artifact_diff_content_branches (a b : Artifact) :
    (a.content = b.content →
      compute_artifact_diff a b = .ok (artifactDiffBase a b)
      ∧ (artifactDiffBase a b).content_diff = none)
    ∧ (a.content ≠ b.content →
        ∀ ka kb, pyJsonLoads a.content = some (J.jobj ka) →
          pyJsonLoads b.content = some (J.jobj kb) →
          compute_artifact_diff a b
            = .ok { artifactDiffBase a b with
                    content_diff := some (.dict (compute_dict_diff ka kb)) })
    ∧ (a.content ≠ b.content →
        (pyJsonLoads a.content = none ∨ pyJsonLoads b.content = none) →
        compute_artifact_diff a b
          = .ok { artifactDiffBase a b with
                  content_diff := some .rawContentDiffers })
    ∧ (a.content ≠ b.content →
        ∀ va vb, pyJsonLoads a.content = some va → pyJsonLoads b.content = some vb →
          (va.isObj = false ∨ vb.isObj = false) →
          compute_artifact_diff a b = .error .attributeError)
    ∧ (∀ d, compute_artifact_diff a b = .ok d → d.content_diff ≠ none →
        d.content_match = false) := by
  refine ⟨?_, ?_, ?_, ?_, ?_⟩
  · intro hc
    unfold compute_artifact_diff
    rw [if_pos hc]
    exact ⟨rfl, rfl⟩
  · intro hc ka kb hla hlb
    unfold compute_artifact_diff
    rw [if_neg hc]
    simp only [hla, hlb]
  · intro hc hor
    unfold compute_artifact_diff
    rw [if_neg hc]
    rcases hor with h | h
    · rw [h]
    · rw [h]
      cases hla : pyJsonLoads a.content with
      | none => rfl
      | some va => cases va <;> rfl
  · intro hc va vb hla hlb hno
    unfold compute_artifact_diff
    rw [if_neg hc]
    simp only [hla, hlb]
    cases va <;> cases vb <;> try rfl
    all_goals (rcases hno with h | h <;> simp [J.isObj] at h)
  · intro d hd hne
    by_cases hc : a.content = b.content
    · unfold compute_artifact_diff at hd
      rw [if_pos hc] at hd
      injection hd with hd
      rw [← hd] at hne
      exact absurd rfl hne
    · unfold compute_artifact_diff at hd
      rw [if_neg hc] at hd
      split at hd <;>
        first
          | exact Except.noConfusion hd
          | (injection hd with hd
             rw [← hd]
             simp [artifactDiffBase, hc])

unseal Rat.add Rat.mul Rat.inv Rat.sub Rat.ofScientific in
/-- Witness for C7 (amended): distinct object contents produce the
per-key dict diff. -/
theorem compute_artifact_diff_content_branches_witness :
    artObjAW.content ≠ artObjBW.content
    ∧ pyJsonLoads artObjAW.content = some (J.jobj [("a", J.jnum 1)])
    ∧ pyJsonLoads artObjBW.content = some (J.jobj [("b", J.jnum 2)])
    ∧ compute_artifact_diff artObjAW artObjBW
        = .ok { artifactDiffBase artObjAW artObjBW with
                content_diff := some (.dict
                  (compute_dict_diff [("a", J.jnum 1)] [("b", J.jnum 2)])) } :=
  ⟨by decide, rfl, rfl,
   (compute_artifact_diff_content_branches artObjAW artObjBW).2.1 (by decide)
     [("a", J.jnum 1)] [("b", J.jnum 2)] rfl rfl⟩

end Watchtower
